import Mathlib

/-!
Verification of the resolver of the `human-date-parser` crate (`src/lib.rs`,
`src/ast.rs`) against its specification.

The crate resolves a typed AST of human time expressions against a reference
instant `now`, using the `chrono` library's proleptic Gregorian calendar
primitives.  We embed:

* dates as day numbers (days since 1970-01-01, as chrono's `NaiveDate` range
  of years -262144 ..= 262142), converted to and from year/month/day by the
  standard civil-calendar algorithm (the semantics of chrono's conversions);
* date-times (`NaiveDateTime`) as seconds since 1970-01-01T00:00:00, whole
  seconds only (every value the crate constructs is a whole second);
* every `chrono` operation the crate calls (`from_ymd_opt`, `with_year`,
  `checked_add_months`/`checked_sub_months` with their day-of-month clamping,
  `checked_add_days`/`checked_sub_days`, signed add of hours/minutes/seconds
  which panics out of range, `weekday`) by its documented semantics;
* the AST and each resolver function of `src/lib.rs` one-to-one.

Results of fallible Rust functions are modelled by `Res`/`PRes`, with a
separate `panicked` outcome for Rust panics (`+`/`-` on `NaiveDateTime`
panic when the result is out of range; `unreachable!` panics).
-/

namespace HumanDateParser

/-! ## Gregorian calendar core (semantics of chrono's `NaiveDate`)

The shifted civil calendar: `mp` counts months from March (`mp = 0`) to
February (`mp = 11`), `yoe` is the year of a 400-year era, `doy` the day of
the shifted year (0-based), `doe` the day of the era (0-based).
-/

/-- Leap year test on a year of era offset (the calendar year congruent to
`n` modulo 400). -/
def isLeapN (n : Nat) : Bool := n % 4 == 0 && (n % 100 != 0 || n % 400 == 0)

/-- Leap year test for a proleptic Gregorian year, as chrono implements it. -/
def isLeap (y : Int) : Bool := y % 4 == 0 && (y % 100 != 0 || y % 400 == 0)

/-- Number of days of month `m` (1-12) in year `y`. -/
def daysInMonth (y : Int) (m : Nat) : Nat :=
  if m = 2 then (if isLeap y then 29 else 28)
  else if m = 4 ∨ m = 6 ∨ m = 9 ∨ m = 11 then 30 else 31

/-- March-shifted month index (March = 0, ..., January = 10, February = 11). -/
def mpOfM (m : Nat) : Nat := if 2 < m then m - 3 else m + 9

/-- Inverse of `mpOfM`: calendar month of a shifted month index. -/
def mOfMp (mp : Nat) : Nat := if mp < 10 then mp + 3 else mp - 9

/-- Days of the shifted year (March = 0) before day `d` of shifted month
`mp`, i.e. the 0-based day of the shifted year. -/
def doyOfCore (mp d : Nat) : Nat := (153 * mp + 2) / 5 + (d - 1)

/-- Day of a 400-year era of the day `(yoe, mp, d)` (0-based). -/
def doeOfCore (yoe mp d : Nat) : Nat := 365 * yoe + yoe / 4 - yoe / 100 + doyOfCore mp d

/-- Day length of shifted month `mp`, counting February as 28. -/
def dimNL (mp : Nat) : Nat :=
  if mp = 11 then 28 else if mp = 1 ∨ mp = 3 ∨ mp = 6 ∨ mp = 8 then 30 else 31

/-- Day number (days since 1970-01-01) of the date `(y, m, d)`. -/
def daysFromCivil (y : Int) (m d : Nat) : Int :=
  let y' : Int := if m ≤ 2 then y - 1 else y
  (y' / 400) * 146097 + (doeOfCore ((y' % 400).toNat) (mpOfM m) d : Int) - 719468

/-- Century of era (0-3) containing day-of-era `doe`. -/
def cOfDoe (doe : Nat) : Nat := (4 * doe + 3) / 146097

/-- Year of century (0-99) containing day-of-century `docy`. -/
def yocOfDocy (docy : Nat) : Nat := (4 * docy + 3) / 1461

/-- Shifted month index of a 0-based day of the shifted year. -/
def mpOfDoy (doy : Nat) : Nat := (5 * doy + 2) / 153

/-- Day of month of a 0-based day of the shifted year. -/
def dOfDoy (doy : Nat) : Nat := doy - (153 * mpOfDoy doy + 2) / 5 + 1

/-- Era (400-year block) of a day number. -/
def eraOf (z : Int) : Int := (z + 719468) / 146097

/-- Day of era (0-based) of a day number. -/
def doeOf (z : Int) : Nat := ((z + 719468) % 146097).toNat

/-- Day of the shifted year of a day number. -/
def doyOfZ (z : Int) : Nat :=
  (doeOf z - 36524 * cOfDoe (doeOf z)) -
    1461 * yocOfDocy (doeOf z - 36524 * cOfDoe (doeOf z)) / 4

/-- Year of era (0-399) of a day number. -/
def yoeOfZ (z : Int) : Nat :=
  100 * cOfDoe (doeOf z) + yocOfDocy (doeOf z - 36524 * cOfDoe (doeOf z))

/-- Date `(y, m, d)` of a day number (days since 1970-01-01): the inverse of
`daysFromCivil`, via era / century / year-of-century / day-of-year
decomposition. -/
def civilFromDays (z : Int) : Int × Nat × Nat :=
  (eraOf z * 400 + yoeOfZ z + (if 10 ≤ mpOfDoy (doyOfZ z) then 1 else 0),
   mOfMp (mpOfDoy (doyOfZ z)), dOfDoy (doyOfZ z))

/-- Year of a day number. -/
def dateYear (z : Int) : Int := (civilFromDays z).1

/-- Month (1-12) of a day number. -/
def dateMonth (z : Int) : Nat := (civilFromDays z).2.1

/-- Day of month of a day number. -/
def dateDay (z : Int) : Nat := (civilFromDays z).2.2

/-! ## `chrono` date-time operations used by the crate

A `NaiveDateTime` is embedded as whole seconds since 1970-01-01T00:00:00;
its date is the floor day number, its time of day the remaining seconds.
chrono's representable dates span the years -262144 ..= 262142.
-/

/-- Smallest year of chrono's `NaiveDate` (262145 BCE). -/
def minYear : Int := -262144

/-- Largest year of chrono's `NaiveDate` (262142 CE). -/
def maxYear : Int := 262142

/-- Day number of `NaiveDate::MIN`. -/
def minDays : Int := daysFromCivil minYear 1 1

/-- Day number of `NaiveDate::MAX`. -/
def maxDays : Int := daysFromCivil maxYear 12 31

/-- Date (day number) of a date-time. -/
def dateOf (t : Int) : Int := t / 86400

/-- Seconds of day of a date-time. -/
def secsOf (t : Int) : Int := t % 86400

/-- Year of a date-time. -/
def yearOf (t : Int) : Int := dateYear (dateOf t)

/-- Month (1-12) of a date-time. -/
def monthOf (t : Int) : Nat := dateMonth (dateOf t)

/-- Day of month of a date-time. -/
def dayOf (t : Int) : Nat := dateDay (dateOf t)

/-- chrono `NaiveDate::from_ymd_opt`: `None` unless the triple is a valid
calendar date within the representable years. -/
def from_ymd_opt (y : Int) (m d : Nat) : Option Int :=
  if 1 ≤ m ∧ m ≤ 12 ∧ 1 ≤ d ∧ d ≤ daysInMonth y m ∧ minYear ≤ y ∧ y ≤ maxYear
  then some (daysFromCivil y m d) else none

/-- chrono `NaiveDateTime::with_year`: keep month, day and time of day,
`None` when the result is not a valid date (e.g. Feb 29 in a non-leap year)
or is out of range. -/
def with_year (t y : Int) : Option Int :=
  match from_ymd_opt y (monthOf t) (dayOf t) with
  | some z => some (z * 86400 + secsOf t)
  | none => none

/-- chrono `NaiveDate::checked_add_days`: `None` when the result is out of
range. -/
def date_checked_add_days (z k : Int) : Option Int :=
  if minDays ≤ z + k ∧ z + k ≤ maxDays then some (z + k) else none

/-- chrono `NaiveDate::checked_sub_days`. -/
def date_checked_sub_days (z k : Int) : Option Int :=
  if minDays ≤ z - k ∧ z - k ≤ maxDays then some (z - k) else none

/-- chrono `NaiveDateTime::checked_add_days`: shift the date, keep the time
of day. -/
def dt_checked_add_days (t k : Int) : Option Int :=
  if minDays ≤ dateOf t + k ∧ dateOf t + k ≤ maxDays then some (t + 86400 * k) else none

/-- chrono `NaiveDateTime::checked_sub_days`. -/
def dt_checked_sub_days (t k : Int) : Option Int :=
  if minDays ≤ dateOf t - k ∧ dateOf t - k ≤ maxDays then some (t - 86400 * k) else none

/-- Total month count (0-based) of the month reached from `t` after `n`
months. -/
def monthsTotal (t n : Int) : Int := yearOf t * 12 + (monthOf t : Int) - 1 + n

/-- chrono month arithmetic (`diff_months`): shift by `n` calendar months,
clamping the day of month to the last day of the target month, keeping the
time of day; `None` when the target is out of range. -/
def months_shift (t n : Int) : Option Int :=
  match from_ymd_opt (monthsTotal t n / 12) ((monthsTotal t n % 12).toNat + 1)
      (min (dayOf t) (daysInMonth (monthsTotal t n / 12) ((monthsTotal t n % 12).toNat + 1))) with
  | some z => some (z * 86400 + secsOf t)
  | none => none

/-- chrono `NaiveDateTime::checked_add_months` for a `u32` count (`None`
when the count exceeds `i32::MAX`). -/
def dt_checked_add_months (t : Int) (n : Nat) : Option Int :=
  if n ≤ 2147483647 then months_shift t (n : Int) else none

/-- chrono `NaiveDateTime::checked_sub_months` for a `u32` count. -/
def dt_checked_sub_months (t : Int) (n : Nat) : Option Int :=
  if n ≤ 2147483647 then months_shift t (-(n : Int)) else none

/-- chrono `Weekday::num_days_from_monday` of a day number
(1970-01-01 was a Thursday, index 3). -/
def weekdayIdx (z : Int) : Nat := ((z + 3) % 7).toNat

/-- Two's-complement reinterpretation of an integer as an `i32`: the unique
representative of its residue class mod `2^32` inside `[-2^31, 2^31)`.
This is what a Rust `i32` addition produces on overflow when overflow
checks are off (the default for release builds; with overflow checks the
same addition panics). -/
def wrapI32 (x : Int) : Int := (x + 2147483648) % 4294967296 - 2147483648

/-- The value of a Rust `u32` reinterpreted as an `i32` (`as i32`):
`n` itself below `2^31`, `n - 2^32` above. -/
def u32AsI32 (n : Nat) : Int := wrapI32 (n : Int)

/-! ## The AST of `src/ast.rs` -/

/-- Calendar month names (`chrono::Month`). -/
inductive Month where
  | January | February | March | April | May | June
  | July | August | September | October | November | December
deriving DecidableEq

/-- chrono `Month::number_from_month`. -/
def Month.number : Month → Nat
  | .January => 1 | .February => 2 | .March => 3 | .April => 4
  | .May => 5 | .June => 6 | .July => 7 | .August => 8
  | .September => 9 | .October => 10 | .November => 11 | .December => 12

/-- Weekday names of the AST (`ast::Weekday`). -/
inductive Weekday where
  | Monday | Tuesday | Wednesday | Thursday | Friday | Saturday | Sunday
deriving DecidableEq

/-- `num_days_from_monday` of the chrono weekday the AST weekday converts
to (`impl From<Weekday> for chrono::Weekday`). -/
def Weekday.idx : Weekday → Nat
  | .Monday => 0 | .Tuesday => 1 | .Wednesday => 2 | .Thursday => 3
  | .Friday => 4 | .Saturday => 5 | .Sunday => 6

/-- `ast::TimeUnit`. -/
inductive TimeUnit where
  | Year | Month | Week | Day | Hour | Minute | Second
deriving DecidableEq

/-- `ast::RelativeSpecifier`. -/
inductive RelativeSpecifier where
  | This | Next | Last
deriving DecidableEq

/-- `ast::Quantifier`: a count (Rust `u32`) with its unit. -/
inductive Quantifier where
  | Year (n : Nat) | Month (n : Nat) | Week (n : Nat) | Day (n : Nat)
  | Hour (n : Nat) | Minute (n : Nat) | Second (n : Nat)
deriving DecidableEq

/-- `ast::Duration`: the ordered list of quantifiers (`Duration(Vec<Quantifier>)`). -/
abbrev Duration := List Quantifier

/-- `ast::IsoDate` (`u32` fields). -/
structure IsoDate where
  year : Nat
  month : Nat
  day : Nat
deriving DecidableEq

/-- `ast::Date`. -/
inductive Date where
  | Today
  | Tomorrow
  | Overmorrow
  | Yesterday
  | IsoDate (iso : IsoDate)
  | DayMonthYear (day : Nat) (month : Month) (year : Nat)
  | DayMonth (day : Nat) (month : Month)
  | RelativeWeekWeekday (spec : RelativeSpecifier) (wd : Weekday)
  | RelativeTimeUnit (spec : RelativeSpecifier) (unit : TimeUnit)
  | RelativeWeekday (spec : RelativeSpecifier) (wd : Weekday)
  | UpcomingWeekday (wd : Weekday)
deriving DecidableEq

/-- `ast::Time`. -/
inductive Time where
  | HourMinute (hour minute : Nat)
  | HourMinuteSecond (hour minute second : Nat)
deriving DecidableEq

/-- `ast::DateTime`. -/
structure DateTime where
  date : Date
  time : Time
deriving DecidableEq

mutual
/-- `ast::HumanTime`; the `In` constructor carries the duration of the
`In(Duration)` wrapper struct directly. -/
inductive HumanTime where
  | DateTime (dt : DateTime)
  | Date (d : Date)
  | Time (t : Time)
  | In (d : Duration)
  | Ago (a : Ago)
  | Now

/-- `ast::Ago`; the boxed inner `HumanTime` is a direct subterm here. -/
inductive Ago where
  | AgoFromNow (d : Duration)
  | AgoFromTime (d : Duration) (t : HumanTime)
end

/-! ## Error and result model of `src/lib.rs` -/

mutual
/-- `ProcessingError`. -/
inductive ProcessingError where
  | TimeHourMinute (hour minute : Nat)
  | TimeHourMinuteSecond (hour minute second : Nat)
  | AddToNow (unit : String) (count : Nat)
  | SubtractFromNow (unit : String) (count : Nat)
  | SubtractFromDate (unit : String) (count : Nat) (date : Int)
  | AddToDate (unit : String) (count : Nat) (date : Int)
  | InvalidDate (year : Int) (month : Nat) (day : Nat)
  | InnerHumanTimeParse (e : ParseError)

/-- `ParseError` (the `InternalError` payload is irrelevant to resolution). -/
inductive ParseError where
  | InvalidFormat
  | ProccessingErrors (errors : List ProcessingError)
  | InternalError
end

/-- `ParseResult`. -/
inductive ParseResult where
  | DateTime (t : Int)
  | Date (d : Int)
  | Time (s : Int)

/-- Outcome of a Rust computation returning `Result<α, ProcessingError>`,
with a separate case for panics. -/
inductive Res (α : Type) where
  | ok (a : α)
  | err (e : ProcessingError)
  | panicked

/-- Outcome of a Rust computation returning `Result<α, ParseError>`, with a
separate case for panics. -/
inductive PRes (α : Type) where
  | ok (a : α)
  | err (e : ParseError)
  | panicked

/-- `Direction`. -/
inductive Direction where
  | Forwards | Backwards
deriving DecidableEq

/-! ## The resolver of `src/lib.rs` -/

/-- `parse_time` (lib.rs:200): `NaiveTime::from_hms_opt` checks. -/
def parse_time : Time → Res Int
  | .HourMinute hour minute =>
    if hour < 24 ∧ minute < 60 then .ok (3600 * hour + 60 * minute)
    else .err (.TimeHourMinute hour minute)
  | .HourMinuteSecond hour minute second =>
    if hour < 24 ∧ minute < 60 ∧ second < 60 then .ok (3600 * hour + 60 * minute + second)
    else .err (.TimeHourMinuteSecond hour minute second)

/-- `parse_iso_date` (lib.rs:182); the `u32` year is cast `as i32`. -/
def parse_iso_date (iso : IsoDate) : Res Int :=
  let year := u32AsI32 iso.year
  match from_ymd_opt year iso.month iso.day with
  | some z => .ok z
  | none => .err (.InvalidDate year iso.month iso.day)

/-- `parse_day_month_year` (lib.rs:191). -/
def parse_day_month_year (day : Nat) (month : Month) (year : Int) : Res Int :=
  match from_ymd_opt year month.number day with
  | some z => .ok z
  | none => .err (.InvalidDate year month.number day)

/-- `NaiveDateTime + Duration` / `- Duration` (already negated in `s`):
panics when the result is out of range. -/
def checked_signed_add (t s : Int) : Res Int :=
  if minDays ≤ dateOf (t + s) ∧ dateOf (t + s) ≤ maxDays then .ok (t + s) else .panicked

/-- The year the `Year` branch of `apply_duration` aims for
(`dt.year() + years` resp. `dt.year() - years`, with the count cast
`as i32`): an `i32` addition, so it wraps in two's complement when the
mathematical sum leaves the `i32` range (the crate built without overflow
checks; with overflow checks the same inputs panic).  `dt.year()` is
itself an `i32` — chrono's years fit it with room to spare — so the wrap
applies exactly when the current year is `i32`-representable; the model's
remaining `Int` states correspond to no chrono instant and keep the exact
sum there. -/
def yearTarget (years : Nat) (dt : Int) (dir : Direction) : Int :=
  if dir = .Forwards then
    if -2147483648 ≤ yearOf dt ∧ yearOf dt ≤ 2147483647 then
      wrapI32 (yearOf dt + u32AsI32 years)
    else yearOf dt + u32AsI32 years
  else
    if -2147483648 ≤ yearOf dt ∧ yearOf dt ≤ 2147483647 then
      wrapI32 (yearOf dt - u32AsI32 years)
    else yearOf dt - u32AsI32 years

/-- The `Quantifier::Year` branch of `apply_duration` (lib.rs:252). -/
def apply_year (years : Nat) (dt : Int) (dir : Direction) : Res Int :=
  match with_year dt (yearTarget years dt dir) with
  | some dt2 => .ok dt2
  | none => .err (.InvalidDate (yearTarget years dt dir) (monthOf dt) (dayOf dt))

/-- The `Quantifier::Month` branch of `apply_duration` (lib.rs:272). -/
def apply_month (months : Nat) (dt : Int) (dir : Direction) : Res Int :=
  if dir = .Forwards then
    match dt_checked_add_months dt months with
    | some dt2 => .ok dt2
    | none => .err (.AddToDate ("months") months dt)
  else
    match dt_checked_sub_months dt months with
    | some dt2 => .ok dt2
    | none => .err (.SubtractFromDate ("months") months dt)

/-- The `Quantifier::Week` branch of `apply_duration` (lib.rs:291); note the
source reports `AddToDate` for both directions. -/
def apply_week (weeks : Nat) (dt : Int) (dir : Direction) : Res Int :=
  if dir = .Forwards then
    match dt_checked_add_days dt (weeks * 7 : Nat) with
    | some dt2 => .ok dt2
    | none => .err (.AddToDate ("weeks") weeks dt)
  else
    match dt_checked_sub_days dt (weeks * 7 : Nat) with
    | some dt2 => .ok dt2
    | none => .err (.AddToDate ("weeks") weeks dt)

/-- The `Quantifier::Day` branch of `apply_duration` (lib.rs:310); the
source reports `AddToDate` for both directions. -/
def apply_day (days : Nat) (dt : Int) (dir : Direction) : Res Int :=
  if dir = .Forwards then
    match dt_checked_add_days dt (days : Nat) with
    | some dt2 => .ok dt2
    | none => .err (.AddToDate ("days") days dt)
  else
    match dt_checked_sub_days dt (days : Nat) with
    | some dt2 => .ok dt2
    | none => .err (.AddToDate ("days") days dt)

/-- The `Quantifier::Hour` branch of `apply_duration` (lib.rs:329). -/
def apply_hour (hours : Nat) (dt : Int) (dir : Direction) : Res Int :=
  if dir = .Forwards then checked_signed_add dt (3600 * hours)
  else checked_signed_add dt (-(3600 * (hours : Int)))

/-- The `Quantifier::Minute` branch of `apply_duration` (lib.rs:336). -/
def apply_minute (minutes : Nat) (dt : Int) (dir : Direction) : Res Int :=
  if dir = .Forwards then checked_signed_add dt (60 * minutes)
  else checked_signed_add dt (-(60 * (minutes : Int)))

/-- The `Quantifier::Second` branch of `apply_duration` (lib.rs:343). -/
def apply_second (seconds : Nat) (dt : Int) (dir : Direction) : Res Int :=
  if dir = .Forwards then checked_signed_add dt (seconds : Nat)
  else checked_signed_add dt (-(seconds : Int))

/-- One iteration of the loop of `apply_duration` (lib.rs:245): apply a
single quantifier in the given direction. -/
def apply_quant (q : Quantifier) (dt : Int) (dir : Direction) : Res Int :=
  match q with
  | .Year years => apply_year years dt dir
  | .Month months => apply_month months dt dir
  | .Week weeks => apply_week weeks dt dir
  | .Day days => apply_day days dt dir
  | .Hour hours => apply_hour hours dt dir
  | .Minute minutes => apply_minute minutes dt dir
  | .Second seconds => apply_second seconds dt dir

/-- `apply_duration` (lib.rs:245): fold the quantifiers over the running
instant, stopping at the first failure. -/
def apply_duration : Duration → Int → Direction → Res Int
  | [], dt, _ => .ok dt
  | q :: rest, dt, dir =>
    match apply_quant q dt dir with
    | .ok dt2 => apply_duration rest dt2 dir
    | .err e => .err e
    | .panicked => .panicked

/-- `relative_date_time_unit` (lib.rs:356); `Hour`/`Minute`/`Second` hit
`unreachable!`, i.e. panic. -/
def relative_date_time_unit (relative : RelativeSpecifier) (time_unit : TimeUnit)
    (now : Int) : Res Int :=
  match time_unit with
  | .Hour | .Minute | .Second => .panicked
  | .Year | .Month | .Week | .Day =>
    let quantifier := match time_unit with
      | .Year => Quantifier.Year 1
      | .Month => Quantifier.Month 1
      | .Week => Quantifier.Week 1
      | _ => Quantifier.Day 1
    match relative with
    | .This => .ok now
    | .Next => apply_duration [quantifier] now .Forwards
    | .Last => apply_duration [quantifier] now .Backwards

/-- `find_weekday_relative` (lib.rs:409). -/
def find_weekday_relative (relative : RelativeSpecifier) (weekday : Weekday)
    (now : Int) : Res Int :=
  match relative with
  | .This | .Next =>
    if relative = .This ∧ weekdayIdx now = weekday.idx then .ok now
    else
      let current := weekdayIdx now
      let target := weekday.idx
      let offset : Nat := if current < target then target - current else 7 - current + target
      match date_checked_add_days now offset with
      | some d => .ok d
      | none => .err (.AddToNow ("days") offset)
  | .Last =>
    let current := weekdayIdx now
    let target := weekday.idx
    let offset : Nat := if current ≤ target then 7 + current - target else current - target
    match date_checked_sub_days now offset with
    | some d => .ok d
    | none => .err (.SubtractFromNow ("days") offset)

/-- `find_weekday_relative_week` (lib.rs:379). -/
def find_weekday_relative_week (relative : RelativeSpecifier) (weekday : Weekday)
    (now : Int) : Res Int :=
  let day_offset : Int := -(weekdayIdx now : Int)
  let week_offset : Int :=
    (match relative with | .This => 0 | .Next => 1 | .Last => -1) * 7
  let offset := day_offset + week_offset
  if 0 < offset then
    match date_checked_add_days now (offset.natAbs : Int) with
    | some now2 => find_weekday_relative .This weekday now2
    | none => .err (.AddToNow ("days") offset.natAbs)
  else
    match date_checked_sub_days now (offset.natAbs : Int) with
    | some now2 => find_weekday_relative .This weekday now2
    | none => .err (.SubtractFromNow ("days") offset.natAbs)

/-- `parse_date` (lib.rs:137). -/
def parse_date (date : Date) (now : Int) : Res Int :=
  match date with
  | .Today => .ok (dateOf now)
  | .Tomorrow =>
    match date_checked_add_days (dateOf now) 1 with
    | some d => .ok d
    | none => .err (.AddToNow ("days") 1)
  | .Overmorrow =>
    match date_checked_add_days (dateOf now) 2 with
    | some d => .ok d
    | none => .err (.AddToNow ("days") 2)
  | .Yesterday =>
    match date_checked_sub_days (dateOf now) 1 with
    | some d => .ok d
    | none => .err (.SubtractFromNow ("days") 1)
  | .IsoDate iso => parse_iso_date iso
  | .DayMonthYear day month year => parse_day_month_year day month (u32AsI32 year)
  | .DayMonth day month => parse_day_month_year day month (yearOf now)
  | .RelativeWeekWeekday r wd => find_weekday_relative_week r wd (dateOf now)
  | .RelativeTimeUnit r tu =>
    match relative_date_time_unit r tu now with
    | .ok t => .ok (dateOf t)
    | .err e => .err e
    | .panicked => .panicked
  | .RelativeWeekday r wd => find_weekday_relative r wd (dateOf now)
  | .UpcomingWeekday wd => find_weekday_relative .Next wd (dateOf now)

/-- `parse_date_time` (lib.rs:123): resolve date and time independently and
collect the failures of both. -/
def parse_date_time (dt : DateTime) (now : Int) : PRes Int :=
  match parse_date dt.date now, parse_time dt.time with
  | .panicked, _ => .panicked
  | _, .panicked => .panicked
  | .ok d, .ok t => .ok (86400 * d + t)
  | .ok _, .err te => .err (.ProccessingErrors [te])
  | .err de, .ok _ => .err (.ProccessingErrors [de])
  | .err de, .err te => .err (.ProccessingErrors [de, te])

/-- `parse_in` (lib.rs:215). -/
def parse_in (d : Duration) (now : Int) : Res Int :=
  apply_duration d now .Forwards

mutual
/-- `parse_human_time` (lib.rs:102). -/
def parse_human_time (parsed : HumanTime) (now : Int) : PRes ParseResult :=
  match parsed with
  | .DateTime date_time =>
    match parse_date_time date_time now with
    | .ok t => .ok (.DateTime t)
    | .err e => .err e
    | .panicked => .panicked
  | .Date date =>
    match parse_date date now with
    | .ok d => .ok (.Date d)
    | .err e => .err (.ProccessingErrors [e])
    | .panicked => .panicked
  | .Time time =>
    match parse_time time with
    | .ok t => .ok (.Time t)
    | .err e => .err (.ProccessingErrors [e])
    | .panicked => .panicked
  | .In d =>
    match parse_in d now with
    | .ok t => .ok (.DateTime t)
    | .err e => .err (.ProccessingErrors [e])
    | .panicked => .panicked
  | .Ago ago =>
    match parse_ago ago now with
    | .ok t => .ok (.DateTime t)
    | .err e => .err (.ProccessingErrors [e])
    | .panicked => .panicked
  | .Now => .ok (.DateTime now)

/-- `parse_ago` (lib.rs:220): an inner `HumanTime` is resolved recursively
to obtain the anchor instant. -/
def parse_ago (ago : Ago) (now : Int) : Res Int :=
  match ago with
  | .AgoFromNow d => apply_duration d now .Backwards
  | .AgoFromTime d time =>
    match parse_human_time time now with
    | .ok human_time =>
      let dt := match human_time with
        | .DateTime t => t
        | .Date date => 86400 * date + secsOf now
        | .Time t => 86400 * dateOf now + t
      apply_duration d dt .Backwards
    | .err e => .err (.InnerHumanTimeParse e)
    | .panicked => .panicked
end

/-- ASCII lower-casing of one character (`str::to_lowercase` restricted to
ASCII, which covers every input the grammar accepts). -/
def lowerChar (c : Char) : Char :=
  if 'A' ≤ c ∧ c ≤ 'Z' then Char.ofNat (c.toNat + 32) else c

/-- ASCII lower-casing of a string. -/
def lowerStr (s : String) : String := ⟨s.data.map lowerChar⟩

/-- Value of a decimal digit, if the character is one. -/
def digToNat? (c : Char) : Option Nat :=
  if '0' ≤ c ∧ c ≤ '9' then some (c.toNat - 48) else none

/-- Accumulating decimal evaluation of a digit list. -/
def digitsAux : List Char → Nat → Option Nat
  | [], acc => some acc
  | c :: rest, acc =>
    match digToNat? c with
    | some d => digitsAux rest (acc * 10 + d)
    | none => none

/-- Decimal value of a nonempty digit list. -/
def digitsToNat? : List Char → Option Nat
  | [] => none
  | l => digitsAux l 0

/-- Fields of a string separated by `-`. -/
def splitDash : List Char → List (List Char)
  | [] => [[]]
  | c :: rest =>
    if c = '-' then [] :: splitDash rest
    else
      match splitDash rest with
      | g :: gs => (c :: g) :: gs
      | [] => [[c]]

/-- Modelled from the spec: the grammar file `date_time.pest` referenced by
`src/ast.rs` is not among the sources, so the text-to-AST stage is modelled
on the fragment the claims need.  Per spec §4.1/§6 the grammar recognizes
ISO dates `YYYY-MM-DD` (unsigned decimal digit fields) as an `IsoDate`
date expression and the literal `now`; inputs matching no modelled rule
fail with the format error. -/
def build_ast_from (s : String) : Except ParseError HumanTime :=
  if s = "now" then .ok .Now
  else
    match (splitDash s.data).map digitsToNat? with
    | [some y, some mo, some d] => .ok (.Date (.IsoDate ⟨y, mo, d⟩))
    | _ => .error .InvalidFormat

/-- `from_human_time` (lib.rs:95): lowercase, build the AST, resolve. -/
def from_human_time (s : String) (now : Int) : PRes ParseResult :=
  match build_ast_from (lowerStr s) with
  | .ok parsed => parse_human_time parsed now
  | .error e => .err e


/-! ## Helper definitions for statements -/

/-- The date-time `y-m-d h:mi:s` as an embedded instant (for concrete
statements). -/
def mkDT (y : Int) (m d h mi s : Nat) : Int :=
  daysFromCivil y m d * 86400 + (3600 * h + 60 * mi + s)

/-- The reference instant 2010-01-01T00:00:00 used by the crate's tests and
the spec's examples. -/
def now2010 : Int := mkDT 2010 1 1 0 0 0

/-- The anchor instant the spec prescribes for `Ago ... at ...`: an inner
`Date` result is combined with `now`'s time of day, an inner `Time` result
with `now`'s date, and an inner `DateTime` result is used as is. -/
def anchor_of (r : ParseResult) (now : Int) : Int :=
  match r with
  | .DateTime t => t
  | .Date d => 86400 * d + secsOf now
  | .Time s => 86400 * dateOf now + s

/-- The duration of `"1 year, 1 month, 1 week, 1 day, 1 hour, 1 minute and
1 second"`, in input order. -/
def durC2 : Duration :=
  [.Year 1, .Month 1, .Week 1, .Day 1, .Hour 1, .Minute 1, .Second 1]

/-! ### Round-trip lemmas for the calendar core -/

/-- Century extraction: bounds of `cOfDoe` and of the residual day of
century. -/
theorem cOfDoe_spec (doe : Nat) (h : doe < 146097) :
    cOfDoe doe ≤ 3 ∧ 36524 * cOfDoe doe ≤ doe ∧
    doe - 36524 * cOfDoe doe ≤ 36523 + (if cOfDoe doe = 3 then 1 else 0) := by
  unfold cOfDoe
  split <;> omega

/-- Year-of-century extraction: bounds of `yocOfDocy` and of the residual
day of year, and the leap correlation at day 365. -/
theorem yocOfDocy_spec (docy : Nat) (h : docy ≤ 36524) :
    yocOfDocy docy ≤ 99 ∧ 1461 * yocOfDocy docy / 4 ≤ docy ∧
    docy - 1461 * yocOfDocy docy / 4 ≤ 365 ∧
    (docy - 1461 * yocOfDocy docy / 4 = 365 →
      yocOfDocy docy % 4 = 3 ∧ (yocOfDocy docy = 99 → docy = 36524)) := by
  unfold yocOfDocy
  omega

/-- Month/day extraction from a day of the shifted year: bounds and the
inversion of `doyOfCore`. -/
theorem mpOfDoy_spec (doy : Nat) (h : doy ≤ 365) :
    mpOfDoy doy ≤ 11 ∧ 1 ≤ dOfDoy doy ∧ doyOfCore (mpOfDoy doy) (dOfDoy doy) = doy ∧
    (doy ≤ 364 → dOfDoy doy ≤ dimNL (mpOfDoy doy)) ∧
    (doy = 365 → mpOfDoy doy = 11 ∧ dOfDoy doy = 29) := by
  simp only [mpOfDoy, dOfDoy, doyOfCore, dimNL]
  refine ⟨by omega, by omega, by omega, ?_, by omega⟩
  intro h364
  split
  · omega
  · split <;> omega

/-- Inversion of the month/day extraction on valid shifted days. -/
theorem doyOfCore_round (mp d : Nat) (hmp : mp ≤ 11) (hd1 : 1 ≤ d)
    (hd : d ≤ dimNL mp + (if mp = 11 then 1 else 0)) :
    mpOfDoy (doyOfCore mp d) = mp ∧ dOfDoy (doyOfCore mp d) = d ∧
    doyOfCore mp d ≤ 365 ∧ (doyOfCore mp d = 365 → mp = 11 ∧ d = 29) := by
  simp only [mpOfDoy, dOfDoy, doyOfCore]
  interval_cases mp <;> simp [dimNL] at hd <;> omega

/-- Inversion of the year extraction on valid `(yoe, doy)` pairs, together
with the day-of-era bound. -/
theorem yoe_round (yoe doy : Nat) (hy : yoe ≤ 399) (hdoy : doy ≤ 365)
    (hleap : doy = 365 → yoe % 4 = 3 ∧ (yoe % 100 ≠ 99 ∨ yoe = 399)) :
    cOfDoe (365 * yoe + yoe / 4 - yoe / 100 + doy) = yoe / 100 ∧
    (365 * yoe + yoe / 4 - yoe / 100 + doy) - 36524 * (yoe / 100) =
      365 * (yoe % 100) + (yoe % 100) / 4 + doy ∧
    yocOfDocy (365 * (yoe % 100) + (yoe % 100) / 4 + doy) = yoe % 100 ∧
    (365 * (yoe % 100) + (yoe % 100) / 4 + doy) - 1461 * (yoe % 100) / 4 = doy ∧
    365 * yoe + yoe / 4 - yoe / 100 + doy < 146097 := by
  unfold cOfDoe yocOfDocy
  have hq : yoe / 100 = 0 ∨ yoe / 100 = 1 ∨ yoe / 100 = 2 ∨ yoe / 100 = 3 := by omega
  rcases hq with h | h | h | h <;> rw [h] <;> omega

set_option maxHeartbeats 3200000 in
/-- Arithmetic glue for `doe_extract`, with the century and year of century
abstracted as variables. -/
theorem doe_glue (doe A B : Nat) (hA3 : A ≤ 3) (hAlo : 36524 * A ≤ doe)
    (hAhi : doe - 36524 * A ≤ 36523 + (if A = 3 then 1 else 0))
    (hB : B ≤ 99) (hBlo : 1461 * B / 4 ≤ doe - 36524 * A)
    (hBhi : (doe - 36524 * A) - 1461 * B / 4 ≤ 365)
    (hBleap : (doe - 36524 * A) - 1461 * B / 4 = 365 →
      B % 4 = 3 ∧ (B = 99 → doe - 36524 * A = 36524)) :
    100 * A + B ≤ 399 ∧
    (doe - 36524 * A) - 1461 * B / 4 ≤ 365 ∧
    ((doe - 36524 * A) - 1461 * B / 4 = 365 →
      (100 * A + B) % 4 = 3 ∧ ((100 * A + B) % 100 ≠ 99 ∨ 100 * A + B = 399)) ∧
    365 * (100 * A + B) + (100 * A + B) / 4 - (100 * A + B) / 100 +
      ((doe - 36524 * A) - 1461 * B / 4) = doe := by
  have e1 : (100 * A + B) / 100 = A := by omega
  have e2 : (100 * A + B) / 4 = 25 * A + B / 4 := by omega
  have e3 : 1461 * B / 4 = 365 * B + B / 4 := by omega
  split at hAhi <;> omega

/-- Extraction from a day of era is valid and inverts `doeOfCore`. -/
theorem doe_extract (doe : Nat) (h : doe < 146097) :
    100 * cOfDoe doe + yocOfDocy (doe - 36524 * cOfDoe doe) ≤ 399 ∧
    (doe - 36524 * cOfDoe doe) - 1461 * yocOfDocy (doe - 36524 * cOfDoe doe) / 4 ≤ 365 ∧
    ((doe - 36524 * cOfDoe doe) - 1461 * yocOfDocy (doe - 36524 * cOfDoe doe) / 4 = 365 →
      (100 * cOfDoe doe + yocOfDocy (doe - 36524 * cOfDoe doe)) % 4 = 3 ∧
      ((100 * cOfDoe doe + yocOfDocy (doe - 36524 * cOfDoe doe)) % 100 ≠ 99 ∨
        100 * cOfDoe doe + yocOfDocy (doe - 36524 * cOfDoe doe) = 399)) ∧
    doeOfCore (100 * cOfDoe doe + yocOfDocy (doe - 36524 * cOfDoe doe))
        (mpOfDoy ((doe - 36524 * cOfDoe doe) - 1461 * yocOfDocy (doe - 36524 * cOfDoe doe) / 4))
        (dOfDoy ((doe - 36524 * cOfDoe doe) - 1461 * yocOfDocy (doe - 36524 * cOfDoe doe) / 4)) =
      doe := by
  obtain ⟨hc3, hclo, hchi⟩ := cOfDoe_spec doe h
  have hdocy' : doe - 36524 * cOfDoe doe ≤ 36524 := by split at hchi <;> omega
  obtain ⟨hyoc, hylo, hyhi, hyleap⟩ := yocOfDocy_spec _ hdocy'
  obtain ⟨hmp, hd1, hfwd, _, _⟩ := mpOfDoy_spec _ hyhi
  simp only [doeOfCore]
  rw [hfwd]
  exact doe_glue doe (cOfDoe doe) (yocOfDocy (doe - 36524 * cOfDoe doe))
    hc3 hclo hchi hyoc hylo hyhi hyleap

/-- Forward then back: extraction inverts `doeOfCore` on valid triples. -/
theorem doeOfCore_round (yoe mp d : Nat) (hy : yoe ≤ 399) (hmp : mp ≤ 11) (hd1 : 1 ≤ d)
    (hd : d ≤ dimNL mp + (if mp = 11 ∧ yoe % 4 = 3 ∧ (yoe % 100 ≠ 99 ∨ yoe = 399)
      then 1 else 0)) :
    cOfDoe (doeOfCore yoe mp d) = yoe / 100 ∧
    yocOfDocy (doeOfCore yoe mp d - 36524 * (yoe / 100)) = yoe % 100 ∧
    (doeOfCore yoe mp d - 36524 * (yoe / 100)) - 1461 * (yoe % 100) / 4 = doyOfCore mp d ∧
    mpOfDoy (doyOfCore mp d) = mp ∧ dOfDoy (doyOfCore mp d) = d ∧
    doeOfCore yoe mp d < 146097 := by
  have hdles : d ≤ dimNL mp + (if mp = 11 then 1 else 0) := by
    split at hd
    · simp only [if_pos (by tauto : mp = 11)] at *
      omega
    · split <;> omega
  obtain ⟨hmpr, hdr, hdoy365, hleapc⟩ := doyOfCore_round mp d hmp hd1 hdles
  have hleap : doyOfCore mp d = 365 → yoe % 4 = 3 ∧ (yoe % 100 ≠ 99 ∨ yoe = 399) := by
    intro h365
    obtain ⟨hm11, hd29⟩ := hleapc h365
    subst hm11
    split at hd
    · tauto
    · simp [dimNL] at hd
      omega
  obtain ⟨h1, h2, h3, h4, h5⟩ := yoe_round yoe (doyOfCore mp d) hy hdoy365 hleap
  unfold doeOfCore
  refine ⟨h1, ?_, ?_, hmpr, hdr, h5⟩
  · rw [show 365 * yoe + yoe / 4 - yoe / 100 + doyOfCore mp d - 36524 * (yoe / 100) =
      365 * (yoe % 100) + yoe % 100 / 4 + doyOfCore mp d from by omega]
    exact h3
  · omega

/-- Properties of the month unshift `mOfMp`. -/
theorem mOfMp_bounds (mp : Nat) (h : mp ≤ 11) :
    1 ≤ mOfMp mp ∧ mOfMp mp ≤ 12 ∧ mpOfM (mOfMp mp) = mp ∧ (mOfMp mp ≤ 2 ↔ 10 ≤ mp) := by
  interval_cases mp <;> decide

/-- Properties of the month shift `mpOfM`. -/
theorem mpOfM_bounds (m : Nat) (h1 : 1 ≤ m) (h2 : m ≤ 12) :
    mpOfM m ≤ 11 ∧ mOfMp (mpOfM m) = m ∧ (10 ≤ mpOfM m ↔ m ≤ 2) := by
  interval_cases m <;> decide

/-- Month lengths in the actual calendar agree with the shifted core table,
with the leap-day correction for February. -/
theorem dim_bridge (era : Int) (yoe mp : Nat) (hyoe : yoe ≤ 399) (hmp : mp ≤ 11) :
    daysInMonth (era * 400 + (yoe : Int) + (if 10 ≤ mp then 1 else 0)) (mOfMp mp) =
      dimNL mp + (if mp = 11 ∧ yoe % 4 = 3 ∧ (yoe % 100 ≠ 99 ∨ yoe = 399) then 1 else 0) := by
  interval_cases mp <;> norm_num [mOfMp, daysInMonth, dimNL]
  split_ifs with h1 h2 h2 <;>
    simp only [isLeap, Bool.and_eq_true, beq_iff_eq, Bool.or_eq_true, bne_iff_ne, ne_eq] at h1 <;>
    omega

/-- Bounds and cast value of the day of era. -/
theorem doeOf_bounds (z : Int) : doeOf z < 146097 ∧ (doeOf z : Int) = (z + 719468) % 146097 := by
  unfold doeOf
  omega

/-- The extraction `civilFromDays` always produces a valid calendar date, and
`daysFromCivil` is its left inverse on every day number. -/
theorem civil_spec (z : Int) :
    1 ≤ dateMonth z ∧ dateMonth z ≤ 12 ∧ 1 ≤ dateDay z ∧
    dateDay z ≤ daysInMonth (dateYear z) (dateMonth z) ∧
    daysFromCivil (dateYear z) (dateMonth z) (dateDay z) = z := by
  obtain ⟨hlt, hcast⟩ := doeOf_bounds z
  obtain ⟨hyoe, hdoy, hleap, hfwd⟩ := doe_extract (doeOf z) hlt
  have hyoeZ : yoeOfZ z ≤ 399 := hyoe
  have hdoyZ : doyOfZ z ≤ 365 := hdoy
  obtain ⟨hmp, hd1, hfwdDoy, hdle, hd365⟩ := mpOfDoy_spec (doyOfZ z) hdoyZ
  obtain ⟨hm1, hm12, hmpm, hmle2⟩ := mOfMp_bounds (mpOfDoy (doyOfZ z)) hmp
  simp only [dateYear, dateMonth, dateDay, civilFromDays]
  refine ⟨hm1, hm12, hd1, ?_, ?_⟩
  · rw [dim_bridge (eraOf z) (yoeOfZ z) (mpOfDoy (doyOfZ z)) hyoeZ hmp]
    by_cases h365 : doyOfZ z = 365
    · obtain ⟨hm11, hd29⟩ := hd365 h365
      have hlp := hleap h365
      rw [if_pos ⟨hm11, hlp⟩, hd29, hm11]
      decide
    · have := hdle (by omega)
      split <;> omega
  · have hfwd2 : doeOfCore (yoeOfZ z) (mpOfDoy (doyOfZ z)) (dOfDoy (doyOfZ z)) = doeOf z := hfwd
    simp only [daysFromCivil]
    have hy' : (if mOfMp (mpOfDoy (doyOfZ z)) ≤ 2 then
        eraOf z * 400 + (yoeOfZ z : Int) + (if 10 ≤ mpOfDoy (doyOfZ z) then 1 else 0) - 1 else
        eraOf z * 400 + (yoeOfZ z : Int) + (if 10 ≤ mpOfDoy (doyOfZ z) then 1 else 0)) =
        eraOf z * 400 + (yoeOfZ z : Int) := by
      by_cases h10 : 10 ≤ mpOfDoy (doyOfZ z)
      · rw [if_pos (hmle2.mpr h10), if_pos h10]
        ring
      · rw [if_neg (fun hc => h10 (hmle2.mp hc)), if_neg h10]
        ring
    rw [hy', hmpm]
    have hdiv : (eraOf z * 400 + (yoeOfZ z : Int)) / 400 = eraOf z := by omega
    have hmod : ((eraOf z * 400 + (yoeOfZ z : Int)) % 400).toNat = yoeOfZ z := by omega
    rw [hdiv, hmod, hfwd2]
    unfold eraOf
    omega

/-- On valid calendar dates, `civilFromDays` is the right inverse of
`daysFromCivil`. -/
theorem civil_daysFromCivil (y : Int) (m d : Nat) (h1 : 1 ≤ m) (hm : m ≤ 12) (hd1 : 1 ≤ d)
    (hd : d ≤ daysInMonth y m) : civilFromDays (daysFromCivil y m d) = (y, m, d) := by
  obtain ⟨hmp11, hmm, h10iff⟩ := mpOfM_bounds m h1 hm
  set Y : Int := if m ≤ 2 then y - 1 else y with hY
  have hyoe1 : ((Y % 400).toNat) ≤ 399 := by omega
  have hy : y = Y / 400 * 400 + ((Y % 400).toNat : Int) + (if 10 ≤ mpOfM m then 1 else 0) := by
    by_cases hm2 : m ≤ 2
    · rw [if_pos (h10iff.mpr hm2)]
      rw [if_pos hm2] at hY
      omega
    · rw [if_neg (fun hc => hm2 (h10iff.mp hc))]
      rw [if_neg hm2] at hY
      omega
  have hdbridge := dim_bridge (Y / 400) ((Y % 400).toNat) (mpOfM m) hyoe1 hmp11
  rw [hmm, ← hy] at hdbridge
  have hdle : d ≤ dimNL (mpOfM m) +
      (if mpOfM m = 11 ∧ (Y % 400).toNat % 4 = 3 ∧
        ((Y % 400).toNat % 100 ≠ 99 ∨ (Y % 400).toNat = 399) then 1 else 0) :=
    hdbridge ▸ hd
  obtain ⟨hc, hyoc, hdoyE, hmpr, hdr, hlt⟩ :=
    doeOfCore_round ((Y % 400).toNat) (mpOfM m) d hyoe1 hmp11 hd1 hdle
  have hE : daysFromCivil y m d =
      Y / 400 * 146097 + (doeOfCore ((Y % 400).toNat) (mpOfM m) d : Int) - 719468 := by
    simp only [daysFromCivil]
  have hdoeE : doeOf (daysFromCivil y m d) = doeOfCore ((Y % 400).toNat) (mpOfM m) d := by
    rw [hE]
    unfold doeOf
    omega
  have heraE : eraOf (daysFromCivil y m d) = Y / 400 := by
    rw [hE]
    unfold eraOf
    omega
  have hdoyZE : doyOfZ (daysFromCivil y m d) = doyOfCore (mpOfM m) d := by
    unfold doyOfZ
    rw [hdoeE, hc, hyoc, hdoyE]
  have hyoeZE : yoeOfZ (daysFromCivil y m d) = (Y % 400).toNat := by
    unfold yoeOfZ
    rw [hdoeE, hc, hyoc]
    omega
  simp only [civilFromDays, hdoyZE, hyoeZE, heraE, hmpr, hdr, hmm, Prod.mk.injEq,
    and_true, true_and]
  exact hy.symm

/-! ## Facts about the date-time embedding -/

/-- Splitting an instant into date and seconds of day. -/
theorem secs_split (t : Int) : t = dateOf t * 86400 + secsOf t ∧ 0 ≤ secsOf t ∧ secsOf t < 86400 := by
  unfold dateOf secsOf
  omega

/-- Date and seconds of a recombined instant. -/
theorem mk_split (z s : Int) (h0 : 0 ≤ s) (h1 : s < 86400) :
    dateOf (z * 86400 + s) = z ∧ secsOf (z * 86400 + s) = s := by
  unfold dateOf secsOf
  omega

/-- Every month has at least 28 days. -/
theorem daysInMonth_ge (y : Int) (m : Nat) : 28 ≤ daysInMonth y m := by
  unfold daysInMonth
  split
  · split <;> omega
  · split <;> omega

/-- What a successful `from_ymd_opt` guarantees. -/
theorem from_ymd_opt_spec (y : Int) (m d : Nat) (z : Int) (h : from_ymd_opt y m d = some z) :
    z = daysFromCivil y m d ∧ dateYear z = y ∧ dateMonth z = m ∧ dateDay z = d ∧
    1 ≤ m ∧ m ≤ 12 ∧ 1 ≤ d ∧ d ≤ daysInMonth y m ∧ minYear ≤ y ∧ y ≤ maxYear := by
  unfold from_ymd_opt at h
  split at h
  · rename_i hv
    obtain ⟨h1, h2, h3, h4, h5, h6⟩ := hv
    injection h with hz
    subst hz
    have hr := civil_daysFromCivil y m d h1 h2 h3 h4
    refine ⟨rfl, ?_, ?_, ?_, h1, h2, h3, h4, h5, h6⟩ <;>
      simp [dateYear, dateMonth, dateDay, hr]
  · cases h

/-- The calendar fields of every embedded instant form a valid date which
converts back to its date. -/
theorem dt_fields_spec (t : Int) :
    1 ≤ monthOf t ∧ monthOf t ≤ 12 ∧ 1 ≤ dayOf t ∧
    dayOf t ≤ daysInMonth (yearOf t) (monthOf t) ∧
    daysFromCivil (yearOf t) (monthOf t) (dayOf t) = dateOf t :=
  civil_spec (dateOf t)

/-- What a successful `with_year` guarantees. -/
theorem with_year_ok (t y r : Int) (h : with_year t y = some r) :
    yearOf r = y ∧ monthOf r = monthOf t ∧ dayOf r = dayOf t ∧ secsOf r = secsOf t ∧
    dateOf r = daysFromCivil y (monthOf t) (dayOf t) := by
  unfold with_year at h
  cases hz : from_ymd_opt y (monthOf t) (dayOf t) with
  | none => rw [hz] at h; cases h
  | some z =>
    rw [hz] at h
    injection h with hr
    subst hr
    obtain ⟨hz1, hy, hm, hd, _⟩ := from_ymd_opt_spec _ _ _ _ hz
    have hsec := secs_split t
    obtain ⟨hd1, hs1⟩ := mk_split z (secsOf t) (by omega) (by omega)
    unfold yearOf monthOf dayOf
    rw [hd1, hs1]
    exact ⟨hy, hm, hd, rfl, hz1⟩

/-- What a failing `with_year` means. -/
theorem with_year_none (t y : Int) (h : with_year t y = none) :
    from_ymd_opt y (monthOf t) (dayOf t) = none := by
  unfold with_year at h
  cases hz : from_ymd_opt y (monthOf t) (dayOf t) with
  | none => rfl
  | some z => rw [hz] at h; cases h

/-- A successful `with_year` requires the target year to be in range. -/
theorem with_year_range (t y r : Int) (h : with_year t y = some r) :
    minYear ≤ y ∧ y ≤ maxYear := by
  unfold with_year at h
  cases hz : from_ymd_opt y (monthOf t) (dayOf t) with
  | none => rw [hz] at h; cases h
  | some z =>
    have hs := from_ymd_opt_spec _ _ _ _ hz
    exact ⟨hs.2.2.2.2.2.2.2.2.1, hs.2.2.2.2.2.2.2.2.2⟩

/-- `u32 as i32` lands in the `i32` range. -/
theorem u32AsI32_bounds (n : Nat) :
    -2147483648 ≤ u32AsI32 n ∧ u32AsI32 n ≤ 2147483647 := by
  unfold u32AsI32 wrapI32
  omega

/-- An `i32` year addition that starts from a year in chrono's range and
whose wrapped result is also in chrono's range did not actually wrap: the
target is the mathematical sum. -/
theorem wrap_ok_exact (y u s : Int) (hy1 : minYear ≤ y) (hy2 : y ≤ maxYear)
    (hu1 : -2147483648 ≤ u) (hu2 : u ≤ 2147483647)
    (hs : s = y + u ∨ s = y - u)
    (hb1 : minYear ≤ wrapI32 s) (hb2 : wrapI32 s ≤ maxYear) : wrapI32 s = s := by
  have hmin : minYear = -262144 := rfl
  have hmax : maxYear = 262142 := rfl
  rw [hmin] at hy1 hb1
  rw [hmax] at hy2 hb2
  unfold wrapI32 at hb1 hb2 ⊢
  rcases hs with rfl | rfl <;> omega

/-- Round trip of the wrapping `i32` year arithmetic: subtracting and
re-adding the same `i32` count returns the original year whenever both
intermediate targets stay inside chrono's year range. -/
theorem wrap_round (y u t1 t2 : Int)
    (hu1 : -2147483648 ≤ u) (hu2 : u ≤ 2147483647)
    (ht1 : (if -2147483648 ≤ y ∧ y ≤ 2147483647 then wrapI32 (y - u) else y - u) = t1)
    (ht2 : (if -2147483648 ≤ t1 ∧ t1 ≤ 2147483647 then wrapI32 (t1 + u) else t1 + u) = t2)
    (hb1 : minYear ≤ t1) (hb2 : t1 ≤ maxYear)
    (hb3 : minYear ≤ t2) (hb4 : t2 ≤ maxYear) :
    t2 = y := by
  have hmin : minYear = -262144 := rfl
  have hmax : maxYear = 262142 := rfl
  rw [hmin] at hb1 hb3
  rw [hmax] at hb2 hb4
  unfold wrapI32 at ht1 ht2
  split at ht1 <;> split at ht2 <;> omega

/-- What a successful `months_shift` guarantees. -/
theorem months_shift_ok (t n r : Int) (h : months_shift t n = some r) :
    yearOf r = monthsTotal t n / 12 ∧
    (monthOf r : Int) = monthsTotal t n % 12 + 1 ∧
    dayOf r = min (dayOf t) (daysInMonth (yearOf r) (monthOf r)) ∧
    secsOf r = secsOf t ∧
    dateOf r = daysFromCivil (monthsTotal t n / 12) ((monthsTotal t n % 12).toNat + 1)
      (min (dayOf t) (daysInMonth (monthsTotal t n / 12) ((monthsTotal t n % 12).toNat + 1))) := by
  unfold months_shift at h
  split at h
  · rename_i z hz
    injection h with hr
    subst hr
    obtain ⟨hz1, hy, hm, hd, _⟩ := from_ymd_opt_spec _ _ _ _ hz
    have hsec := secs_split t
    obtain ⟨hd1, hs1⟩ := mk_split z (secsOf t) (by omega) (by omega)
    unfold yearOf monthOf dayOf
    rw [hd1, hs1, hy, hm, hd]
    refine ⟨rfl, by omega, rfl, rfl, hz1⟩
  · cases h

/-- A failing `months_shift` means the target year is out of range. -/
theorem months_shift_none (t n : Int) (h : months_shift t n = none) :
    ¬ (minYear ≤ monthsTotal t n / 12 ∧ monthsTotal t n / 12 ≤ maxYear) := by
  unfold months_shift at h
  split at h
  · cases h
  · rename_i hz
    unfold from_ymd_opt at hz
    split at hz
    · cases hz
    · rename_i hv
      have hdt := (dt_fields_spec t).2.2.1
      have hge := daysInMonth_ge (monthsTotal t n / 12) ((monthsTotal t n % 12).toNat + 1)
      intro hr
      exact hv ⟨by omega, by omega, by omega, by omega, hr.1, hr.2⟩

/-! ## Claim C1 -/

/-- C1, corrected behaviour of `apply_duration` on `Year` and `Month`
quantifiers (lib.rs:252-290): a `Year` application preserves month, day of
month and time of day when it succeeds, and fails with an `InvalidDate`
error naming the attempted year together with the current month and day.
The attempted year is computed in 32-bit arithmetic — the count is cast
`u32 as i32` and added to or subtracted from the `i32` year, wrapping in
two's complement on overflow — so from any instant in chrono's range the
target is the unique `i32` congruent to the mathematical sum mod `2^32`,
and a successful application from such an instant realised the
mathematical sum exactly.  A `Month` application never fails because of a
nonexistent day of month — it clamps the day to the last day of the
target month — and its only failures are out-of-range failures reported
as `AddToDate`/`SubtractFromDate` naming unit, count and starting date. -/
theorem C1_year_month :
    (∀ (dt : Int) (n : Nat) (dir : Direction) (r : Int),
      apply_quant (.Year n) dt dir = .ok r →
        yearOf r = yearTarget n dt dir ∧
        monthOf r = monthOf dt ∧ dayOf r = dayOf dt ∧ secsOf r = secsOf dt ∧
        (minYear ≤ yearOf dt → yearOf dt ≤ maxYear →
          yearOf r = (if dir = .Forwards then yearOf dt + u32AsI32 n
            else yearOf dt - u32AsI32 n))) ∧
    (∀ (dt : Int) (n : Nat) (dir : Direction) (e : ProcessingError),
      apply_quant (.Year n) dt dir = .err e →
        e = .InvalidDate (yearTarget n dt dir) (monthOf dt) (dayOf dt)) ∧
    (∀ (dt : Int) (n : Nat) (dir : Direction),
      minYear ≤ yearOf dt → yearOf dt ≤ maxYear →
        -2147483648 ≤ yearTarget n dt dir ∧ yearTarget n dt dir ≤ 2147483647 ∧
        (4294967296 : Int) ∣ (yearTarget n dt dir -
          (if dir = .Forwards then yearOf dt + u32AsI32 n else yearOf dt - u32AsI32 n))) ∧
    (∀ (dt : Int) (n : Nat) (dir : Direction) (e : ProcessingError),
      apply_quant (.Month n) dt dir = .err e →
        e = (if dir = .Forwards then ProcessingError.AddToDate ("months") n dt
          else ProcessingError.SubtractFromDate ("months") n dt)) ∧
    (∀ (dt : Int) (n : Nat) (dir : Direction) (r : Int),
      apply_quant (.Month n) dt dir = .ok r →
        dayOf r = min (dayOf dt) (daysInMonth (yearOf r) (monthOf r)) ∧
        secsOf r = secsOf dt) := by
  refine ⟨?_, ?_, ?_, ?_, ?_⟩
  · intro dt n dir r h
    have h2 : apply_year n dt dir = .ok r := h
    unfold apply_year at h2
    split at h2
    · rename_i dt2 hw
      injection h2 with hr
      subst hr
      obtain ⟨hy, hm, hd, hs, _⟩ := with_year_ok _ _ _ hw
      refine ⟨hy, hm, hd, hs, ?_⟩
      intro hc1 hc2
      have hq := with_year_range _ _ _ hw
      have hu := u32AsI32_bounds n
      have hc1' : (-262144 : Int) ≤ yearOf dt := hc1
      have hc2' : yearOf dt ≤ (262142 : Int) := hc2
      have hcond : -2147483648 ≤ yearOf dt ∧ yearOf dt ≤ 2147483647 :=
        ⟨by omega, by omega⟩
      rw [hy]
      cases dir with
      | Forwards =>
        have he : yearTarget n dt Direction.Forwards =
            wrapI32 (yearOf dt + u32AsI32 n) := by
          show (if -2147483648 ≤ yearOf dt ∧ yearOf dt ≤ 2147483647 then
              wrapI32 (yearOf dt + u32AsI32 n) else yearOf dt + u32AsI32 n) = _
          rw [if_pos hcond]
        rw [he] at hq
        show yearTarget n dt Direction.Forwards = yearOf dt + u32AsI32 n
        rw [he]
        exact wrap_ok_exact (yearOf dt) (u32AsI32 n) _ hc1 hc2 hu.1 hu.2
          (Or.inl rfl) hq.1 hq.2
      | Backwards =>
        have he : yearTarget n dt Direction.Backwards =
            wrapI32 (yearOf dt - u32AsI32 n) := by
          show (if -2147483648 ≤ yearOf dt ∧ yearOf dt ≤ 2147483647 then
              wrapI32 (yearOf dt - u32AsI32 n) else yearOf dt - u32AsI32 n) = _
          rw [if_pos hcond]
        rw [he] at hq
        show yearTarget n dt Direction.Backwards = yearOf dt - u32AsI32 n
        rw [he]
        exact wrap_ok_exact (yearOf dt) (u32AsI32 n) _ hc1 hc2 hu.1 hu.2
          (Or.inr rfl) hq.1 hq.2
    · cases h2
  · intro dt n dir e h2y
    have h2 : apply_year n dt dir = .err e := h2y
    unfold apply_year at h2
    split at h2
    · cases h2
    · injection h2 with he
      exact he.symm
  · intro dt n dir hc1 hc2
    have hc1' : (-262144 : Int) ≤ yearOf dt := hc1
    have hc2' : yearOf dt ≤ (262142 : Int) := hc2
    have hcond : -2147483648 ≤ yearOf dt ∧ yearOf dt ≤ 2147483647 :=
      ⟨by omega, by omega⟩
    cases dir with
    | Forwards =>
      have he : yearTarget n dt Direction.Forwards =
          wrapI32 (yearOf dt + u32AsI32 n) := by
        show (if -2147483648 ≤ yearOf dt ∧ yearOf dt ≤ 2147483647 then
            wrapI32 (yearOf dt + u32AsI32 n) else yearOf dt + u32AsI32 n) = _
        rw [if_pos hcond]
      show -2147483648 ≤ yearTarget n dt Direction.Forwards ∧
        yearTarget n dt Direction.Forwards ≤ 2147483647 ∧
        (4294967296 : Int) ∣
          (yearTarget n dt Direction.Forwards - (yearOf dt + u32AsI32 n))
      rw [he]
      unfold wrapI32
      omega
    | Backwards =>
      have he : yearTarget n dt Direction.Backwards =
          wrapI32 (yearOf dt - u32AsI32 n) := by
        show (if -2147483648 ≤ yearOf dt ∧ yearOf dt ≤ 2147483647 then
            wrapI32 (yearOf dt - u32AsI32 n) else yearOf dt - u32AsI32 n) = _
        rw [if_pos hcond]
      show -2147483648 ≤ yearTarget n dt Direction.Backwards ∧
        yearTarget n dt Direction.Backwards ≤ 2147483647 ∧
        (4294967296 : Int) ∣
          (yearTarget n dt Direction.Backwards - (yearOf dt - u32AsI32 n))
      rw [he]
      unfold wrapI32
      omega
  · intro dt n dir e h
    have h2 : apply_month n dt dir = .err e := h
    unfold apply_month at h2
    split at h2 <;> rename_i hdir
    · rw [if_pos hdir]
      split at h2
      · cases h2
      · injection h2 with he
        exact he.symm
    · rw [if_neg hdir]
      split at h2
      · cases h2
      · injection h2 with he
        exact he.symm
  · intro dt n dir r h
    have h2 : apply_month n dt dir = .ok r := h
    unfold apply_month at h2
    split at h2 <;> rename_i hdir
    · split at h2
      · rename_i dt2 hadd
        injection h2 with hr
        subst hr
        unfold dt_checked_add_months at hadd
        split at hadd
        · obtain ⟨_, _, hd, hs, _⟩ := months_shift_ok _ _ _ hadd
          exact ⟨hd, hs⟩
        · cases hadd
      · cases h2
    · split at h2
      · rename_i dt2 hsub
        injection h2 with hr
        subst hr
        unfold dt_checked_sub_months at hsub
        split at hsub
        · obtain ⟨_, _, hd, hs, _⟩ := months_shift_ok _ _ _ hsub
          exact ⟨hd, hs⟩
        · cases hsub
      · cases h2

set_option maxHeartbeats 4000000 in
/-- C1 counterexample: subtracting one month from 2010-03-31 does not fail —
it silently clamps to 2010-02-28 — the failing `Year` application of
2008-02-29 minus one year reports `InvalidDate` (the attempted date), not
the unit and count, and a count of `2147483648` years backwards from 2010
overflows the 32-bit year arithmetic: the reported year is the wrapped
`-2147481638`, not the mathematical `2147485658`. -/
theorem C1_counterexample :
    apply_duration [Quantifier.Month 1] (mkDT 2010 3 31 0 0 0) .Backwards =
      .ok (mkDT 2010 2 28 0 0 0) ∧
    apply_duration [Quantifier.Year 1] (mkDT 2008 2 29 0 0 0) .Backwards =
      .err (.InvalidDate 2007 2 29) ∧
    apply_duration [Quantifier.Year 2147483648] (mkDT 2010 1 1 0 0 0) .Backwards =
      .err (.InvalidDate (-2147481638) 1 1) := by
  exact ⟨rfl, rfl, rfl⟩

set_option maxHeartbeats 4000000 in
/-- C1 witness: the corrected theorem applied at concrete inputs. -/
theorem C1_witness :
    apply_quant (.Year 1) now2010 .Forwards = .ok (mkDT 2011 1 1 0 0 0) ∧
    monthOf (mkDT 2011 1 1 0 0 0) = monthOf now2010 ∧
    dayOf (mkDT 2011 1 1 0 0 0) = dayOf now2010 ∧
    yearOf (mkDT 2011 1 1 0 0 0) = yearOf now2010 + u32AsI32 1 ∧
    ProcessingError.InvalidDate 2007 2 29 =
      .InvalidDate (yearTarget 1 (mkDT 2008 2 29 0 0 0) .Backwards)
        (monthOf (mkDT 2008 2 29 0 0 0)) (dayOf (mkDT 2008 2 29 0 0 0)) ∧
    -2147483648 ≤ yearTarget 2147483648 now2010 .Backwards ∧
    (4294967296 : Int) ∣ (yearTarget 2147483648 now2010 .Backwards -
      (yearOf now2010 - u32AsI32 2147483648)) ∧
    apply_quant (.Month 1) (mkDT 2010 3 31 0 0 0) .Backwards = .ok (mkDT 2010 2 28 0 0 0) ∧
    dayOf (mkDT 2010 2 28 0 0 0) = min (dayOf (mkDT 2010 3 31 0 0 0))
      (daysInMonth (yearOf (mkDT 2010 2 28 0 0 0)) (monthOf (mkDT 2010 2 28 0 0 0))) := by
  refine ⟨rfl, ?_, ?_, ?_, ?_, ?_, ?_, rfl, ?_⟩
  · exact (C1_year_month.1 now2010 1 .Forwards _ rfl).2.1
  · exact (C1_year_month.1 now2010 1 .Forwards _ rfl).2.2.1
  · exact (C1_year_month.1 now2010 1 .Forwards _ rfl).2.2.2.2 (by decide) (by decide)
  · exact C1_year_month.2.1 (mkDT 2008 2 29 0 0 0) 1 .Backwards _ rfl
  · exact (C1_year_month.2.2.1 now2010 2147483648 .Backwards (by decide) (by decide)).1
  · exact (C1_year_month.2.2.1 now2010 2147483648 .Backwards (by decide) (by decide)).2.2
  · exact (C1_year_month.2.2.2.2 (mkDT 2010 3 31 0 0 0) 1 .Backwards _ rfl).1

/-! ## Claim C2 -/

set_option maxHeartbeats 4000000 in
/-- C2 counterexample: with `now` = 2010-01-01T00:00:00, the input duration
`1 year, 1 month, 1 week, 1 day, 1 hour, 1 minute and 1 second` applied
backwards resolves to 2008-11-22T22:58:59, which is not the
2008-11-23T22:58:59 the claim states (the crate's own test expects
2008-11-22 22:58:59). -/
theorem C2_counterexample :
    parse_human_time (.Ago (.AgoFromNow durC2)) now2010 =
      .ok (.DateTime (mkDT 2008 11 22 22 58 59)) ∧
    mkDT 2008 11 22 22 58 59 ≠ mkDT 2008 11 23 22 58 59 := by
  exact ⟨rfl, by decide⟩

set_option maxHeartbeats 4000000 in
/-- C2, amended: the expression resolves to 2008-11-22T22:58:59 (one hour
earlier than midnight of Nov 23, because subtracting the final hour, minute
and second crosses midnight backwards). -/
theorem C2_resolved :
    parse_human_time (.Ago (.AgoFromNow durC2)) now2010 =
      .ok (.DateTime (mkDT 2008 11 22 22 58 59)) := rfl

/-! ## Claim C3 -/

/-- The weekday index of any day number is below 7. -/
theorem weekdayIdx_lt (z : Int) : weekdayIdx z < 7 := by
  unfold weekdayIdx
  omega

/-- The index of every AST weekday is below 7. -/
theorem weekday_idx_lt (w : Weekday) : w.idx < 7 := by
  cases w <;> decide

/-- Reduction of `find_weekday_relative` for `This` and `Next`. -/
theorem fwr_this_next (relative : RelativeSpecifier) (w : Weekday) (z : Int)
    (hrel : relative = .This ∨ relative = .Next) :
    find_weekday_relative relative w z =
      if relative = .This ∧ weekdayIdx z = w.idx then .ok z
      else
        match date_checked_add_days z
            ((if weekdayIdx z < w.idx then w.idx - weekdayIdx z
              else 7 - weekdayIdx z + w.idx : Nat) : Int) with
        | some d => .ok d
        | none => .err (.AddToNow ("days")
            (if weekdayIdx z < w.idx then w.idx - weekdayIdx z
              else 7 - weekdayIdx z + w.idx)) := by
  rcases hrel with h | h <;> subst h <;> rfl

/-- Reduction of `find_weekday_relative` for `Last`. -/
theorem fwr_last (w : Weekday) (z : Int) :
    find_weekday_relative .Last w z =
      match date_checked_sub_days z
          ((if weekdayIdx z ≤ w.idx then 7 + weekdayIdx z - w.idx
            else weekdayIdx z - w.idx : Nat) : Int) with
      | some d => .ok d
      | none => .err (.SubtractFromNow ("days")
          (if weekdayIdx z ≤ w.idx then 7 + weekdayIdx z - w.idx
            else weekdayIdx z - w.idx)) := rfl

/-- C3: the weekday-search tie-break of `find_weekday_relative`
(lib.rs:409-452): `this w` returns `now` itself when `now` already falls on
weekday `w`; `next w`, and the bare weekday (resolved as `Next`), return a
date strictly 1 to 7 days after `now`, never `now` itself; `last w` returns
a date strictly 1 to 7 days before `now`. -/
theorem C3_weekday_search (w : Weekday) (z : Int) :
    (weekdayIdx z = w.idx → find_weekday_relative .This w z = .ok z) ∧
    (∀ r, find_weekday_relative .Next w z = .ok r → z + 1 ≤ r ∧ r ≤ z + 7) ∧
    (∀ now r, parse_date (.UpcomingWeekday w) now = .ok r →
      dateOf now + 1 ≤ r ∧ r ≤ dateOf now + 7) ∧
    (∀ r, find_weekday_relative .Last w z = .ok r → z - 7 ≤ r ∧ r ≤ z - 1) := by
  have key : ∀ (z2 r : Int), find_weekday_relative .Next w z2 = .ok r →
      z2 + 1 ≤ r ∧ r ≤ z2 + 7 := by
    intro z2 r h
    rw [fwr_this_next .Next w z2 (Or.inr rfl)] at h
    rw [if_neg (fun hc => RelativeSpecifier.noConfusion hc.1)] at h
    have hc := weekdayIdx_lt z2
    have ht := weekday_idx_lt w
    have hoff : 1 ≤ (if weekdayIdx z2 < w.idx then w.idx - weekdayIdx z2
        else 7 - weekdayIdx z2 + w.idx) ∧
        (if weekdayIdx z2 < w.idx then w.idx - weekdayIdx z2
          else 7 - weekdayIdx z2 + w.idx) ≤ 7 := by
      split <;> omega
    generalize hgen : (if weekdayIdx z2 < w.idx then w.idx - weekdayIdx z2
        else 7 - weekdayIdx z2 + w.idx) = off at h hoff
    unfold date_checked_add_days at h
    by_cases hr2 : minDays ≤ z2 + (off : Int) ∧ z2 + (off : Int) ≤ maxDays
    · rw [if_pos hr2] at h
      have h2 : Res.ok (z2 + (off : Int)) = Res.ok r := h
      injection h2 with h3
      omega
    · rw [if_neg hr2] at h
      have h2 : (Res.err (.AddToNow ("days") off) : Res Int) = Res.ok r := h
      cases h2
  refine ⟨?_, key z, ?_, ?_⟩
  · intro hw
    rw [fwr_this_next .This w z (Or.inl rfl)]
    rw [if_pos ⟨rfl, hw⟩]
  · intro now r h
    exact key (dateOf now) r h
  · intro r h
    rw [fwr_last] at h
    have hc := weekdayIdx_lt z
    have ht := weekday_idx_lt w
    have hoff : 1 ≤ (if weekdayIdx z ≤ w.idx then 7 + weekdayIdx z - w.idx
        else weekdayIdx z - w.idx) ∧
        (if weekdayIdx z ≤ w.idx then 7 + weekdayIdx z - w.idx
          else weekdayIdx z - w.idx) ≤ 7 := by
      split <;> omega
    generalize hgen : (if weekdayIdx z ≤ w.idx then 7 + weekdayIdx z - w.idx
        else weekdayIdx z - w.idx) = off at h hoff
    unfold date_checked_sub_days at h
    by_cases hr2 : minDays ≤ z - (off : Int) ∧ z - (off : Int) ≤ maxDays
    · rw [if_pos hr2] at h
      have h2 : Res.ok (z - (off : Int)) = Res.ok r := h
      injection h2 with h3
      omega
    · rw [if_neg hr2] at h
      have h2 : (Res.err (.SubtractFromNow ("days") off) : Res Int) = Res.ok r := h
      cases h2

set_option maxHeartbeats 4000000 in
/-- C3 witness: 2010-01-01 (day number 14610) is a Friday; `this friday`
returns it, `next friday`/bare `friday` return 2010-01-08, within 1 to 7
days forward, and `last friday` returns 2009-12-25, within 1 to 7 days
backward. -/
theorem C3_witness :
    weekdayIdx 14610 = Weekday.Friday.idx ∧
    find_weekday_relative .This .Friday 14610 = .ok 14610 ∧
    (14610 + 1 ≤ (14617 : Int) ∧ (14617 : Int) ≤ 14610 + 7) ∧
    (dateOf now2010 + 1 ≤ (14617 : Int) ∧ (14617 : Int) ≤ dateOf now2010 + 7) ∧
    ((14610 : Int) - 7 ≤ 14603 ∧ (14603 : Int) ≤ 14610 - 1) := by
  refine ⟨by decide, ?_, ?_, ?_, ?_⟩
  · exact (C3_weekday_search .Friday 14610).1 (by decide)
  · exact (C3_weekday_search .Friday 14610).2.1 14617 (by rfl)
  · exact (C3_weekday_search .Friday 14610).2.2.1 now2010 14617 (by rfl)
  · exact (C3_weekday_search .Friday 14610).2.2.2 14603 (by rfl)

/-! ## Claim C4 -/

set_option maxHeartbeats 4000000 in
/-- C4: resolution of `Ago` with an inner expression (lib.rs:226-235) first
resolves the inner `HumanTime` to an anchor — an inner `Date` is combined
with `now`'s time of day, an inner `Time` with `now`'s date, an inner
`DateTime` is used as is — then applies the duration backward from that
anchor; inner failures are wrapped in `InnerHumanTimeParse`.  In
particular, with `now` = 2010-01-01T00:00:00, `12 hours ago at 7 days ago`
resolves to 2009-12-24T12:00:00. -/
theorem C4_ago_anchor :
    (∀ (d : Duration) (inner : HumanTime) (now : Int),
      parse_ago (.AgoFromTime d inner) now =
        match parse_human_time inner now with
        | .ok r => apply_duration d (anchor_of r now) .Backwards
        | .err e => .err (.InnerHumanTimeParse e)
        | .panicked => .panicked) ∧
    parse_human_time (.Ago (.AgoFromTime [.Hour 12] (.Ago (.AgoFromNow [.Day 7])))) now2010 =
      .ok (.DateTime (mkDT 2009 12 24 12 0 0)) := by
  constructor
  · intro d inner now
    cases h : parse_human_time inner now with
    | ok r =>
      unfold parse_ago
      simp only [h]
      cases r <;> rfl
    | err e =>
      unfold parse_ago
      simp only [h]
    | panicked =>
      unfold parse_ago
      simp only [h]
  · rfl

/-! ## Claim C5 -/

/-- C5: `parse_date_time` (lib.rs:123-135) resolves the date and time parts
independently; when both fail the reported processing-error list carries
both errors (date error first), and when exactly one fails that one error
is reported. -/
theorem C5_error_collection (d : Date) (t : Time) (now : Int) :
    (∀ e1 e2, parse_date d now = .err e1 → parse_time t = .err e2 →
      parse_date_time ⟨d, t⟩ now = .err (.ProccessingErrors [e1, e2])) ∧
    (∀ e1 v, parse_date d now = .err e1 → parse_time t = .ok v →
      parse_date_time ⟨d, t⟩ now = .err (.ProccessingErrors [e1])) ∧
    (∀ v e2, parse_date d now = .ok v → parse_time t = .err e2 →
      parse_date_time ⟨d, t⟩ now = .err (.ProccessingErrors [e2])) := by
  refine ⟨?_, ?_, ?_⟩ <;> intro a b h1 h2 <;> unfold parse_date_time <;> simp only [h1, h2]

set_option maxHeartbeats 4000000 in
/-- C5 witness: for the date `2023-11-31` and the time `25:00` both errors
are collected; with only one side invalid, only its error is reported. -/
theorem C5_witness :
    parse_date_time ⟨.IsoDate ⟨2023, 11, 31⟩, .HourMinute 25 0⟩ now2010 =
      .err (.ProccessingErrors [.InvalidDate 2023 11 31, .TimeHourMinute 25 0]) ∧
    parse_date_time ⟨.IsoDate ⟨2023, 11, 31⟩, .HourMinute 7 0⟩ now2010 =
      .err (.ProccessingErrors [.InvalidDate 2023 11 31]) ∧
    parse_date_time ⟨.Today, .HourMinute 25 0⟩ now2010 =
      .err (.ProccessingErrors [.TimeHourMinute 25 0]) := by
  refine ⟨?_, ?_, ?_⟩
  · exact (C5_error_collection (.IsoDate ⟨2023, 11, 31⟩) (.HourMinute 25 0) now2010).1
      (.InvalidDate 2023 11 31) (.TimeHourMinute 25 0) rfl rfl
  · exact (C5_error_collection (.IsoDate ⟨2023, 11, 31⟩) (.HourMinute 7 0) now2010).2.1
      (.InvalidDate 2023 11 31) 25200 rfl rfl
  · exact (C5_error_collection .Today (.HourMinute 25 0) now2010).2.2
      (dateOf now2010) (.TimeHourMinute 25 0) rfl rfl

/-! ## Claim C6 -/

/-- A one-element duration applies its single quantifier. -/
theorem apply_duration_single (q : Quantifier) (x : Int) (dir : Direction) :
    apply_duration [q] x dir = apply_quant q x dir := by
  unfold apply_duration
  cases h : apply_quant q x dir <;> simp only [h] <;> rfl

/-- Extracting the duration application from a successful `Ago` resolution. -/
theorem pht_ago_ok (dur : Duration) (now r : Int)
    (h : parse_human_time (.Ago (.AgoFromNow dur)) now = .ok (.DateTime r)) :
    apply_duration dur now .Backwards = .ok r := by
  have h2 : (match apply_duration dur now .Backwards with
      | Res.ok t => PRes.ok (ParseResult.DateTime t)
      | Res.err e => PRes.err (.ProccessingErrors [e])
      | Res.panicked => PRes.panicked) = PRes.ok (ParseResult.DateTime r) := h
  cases hres : apply_duration dur now .Backwards with
  | ok t =>
    rw [hres] at h2
    have h3 : PRes.ok (ParseResult.DateTime t) = PRes.ok (ParseResult.DateTime r) := h2
    injection h3 with h4
    injection h4 with h5
    rw [h5]
  | err e =>
    rw [hres] at h2
    have h3 : (PRes.err (.ProccessingErrors [e]) : PRes ParseResult) =
      PRes.ok (ParseResult.DateTime r) := h2
    cases h3
  | panicked =>
    rw [hres] at h2
    have h3 : (PRes.panicked : PRes ParseResult) = PRes.ok (ParseResult.DateTime r) := h2
    cases h3

/-- Extracting the duration application from a successful `In` resolution. -/
theorem pht_in_ok (dur : Duration) (now r : Int)
    (h : parse_human_time (.In dur) now = .ok (.DateTime r)) :
    apply_duration dur now .Forwards = .ok r := by
  have h2 : (match apply_duration dur now .Forwards with
      | Res.ok t => PRes.ok (ParseResult.DateTime t)
      | Res.err e => PRes.err (.ProccessingErrors [e])
      | Res.panicked => PRes.panicked) = PRes.ok (ParseResult.DateTime r) := h
  cases hres : apply_duration dur now .Forwards with
  | ok t =>
    rw [hres] at h2
    have h3 : PRes.ok (ParseResult.DateTime t) = PRes.ok (ParseResult.DateTime r) := h2
    injection h3 with h4
    injection h4 with h5
    rw [h5]
  | err e =>
    rw [hres] at h2
    have h3 : (PRes.err (.ProccessingErrors [e]) : PRes ParseResult) =
      PRes.ok (ParseResult.DateTime r) := h2
    cases h3
  | panicked =>
    rw [hres] at h2
    have h3 : (PRes.panicked : PRes ParseResult) = PRes.ok (ParseResult.DateTime r) := h2
    cases h3

/-- Round trip of the `Year` quantifier: subtracting then adding the same
year count returns to the start whenever both applications succeed. -/
theorem year_round (n : Nat) (now r r2 : Int)
    (ha : apply_year n now .Backwards = .ok r) (hb : apply_year n r .Forwards = .ok r2) :
    r2 = now := by
  unfold apply_year at ha hb
  split at ha
  · rename_i dt2 hw1
    injection ha with har
    rw [har] at hw1
    split at hb
    · rename_i dt3 hw2
      injection hb with hbr
      rw [hbr] at hw2
      obtain ⟨hy1, hm1, hd1, hs1, hz1⟩ := with_year_ok _ _ _ hw1
      obtain ⟨hy2, hm2, hd2, hs2, hz2⟩ := with_year_ok _ _ _ hw2
      have hq1 := with_year_range _ _ _ hw1
      have hq2 := with_year_range _ _ _ hw2
      rw [← hy1] at hq1
      have hu := u32AsI32_bounds n
      have ht1 : (if -2147483648 ≤ yearOf now ∧ yearOf now ≤ 2147483647 then
          wrapI32 (yearOf now - u32AsI32 n) else yearOf now - u32AsI32 n) =
          yearOf r := hy1.symm
      have hyy : yearTarget n r .Forwards = yearOf now :=
        wrap_round (yearOf now) (u32AsI32 n) (yearOf r) (yearTarget n r .Forwards)
          hu.1 hu.2 ht1 rfl hq1.1 hq1.2 hq2.1 hq2.2
      rw [hyy, hm1, hd1] at hz2
      rw [(dt_fields_spec now).2.2.2.2] at hz2
      rw [hs1] at hs2
      have e1 := secs_split r2
      have e2 := secs_split now
      omega
    · cases hb
  · cases ha

/-- Round trip of the `Month` quantifier under the no-clamping hypothesis. -/
theorem month_round (n : Nat) (now r r2 : Int)
    (ha : apply_month n now .Backwards = .ok r) (hb : apply_month n r .Forwards = .ok r2)
    (hd : dayOf r = dayOf now) : r2 = now := by
  unfold apply_month at ha hb
  rw [if_neg (by decide : ¬(Direction.Backwards = .Forwards))] at ha
  rw [if_pos rfl] at hb
  split at ha
  · rename_i dt2 hsub
    injection ha with har
    rw [har] at hsub
    split at hb
    · rename_i dt3 hadd
      injection hb with hbr
      rw [hbr] at hadd
      unfold dt_checked_sub_months at hsub
      unfold dt_checked_add_months at hadd
      by_cases hn : n ≤ 2147483647
      · rw [if_pos hn] at hsub hadd
        obtain ⟨hy1, hm1, hdd1, hs1, hz1⟩ := months_shift_ok _ _ _ hsub
        obtain ⟨hy2, hm2, hdd2, hs2, hz2⟩ := months_shift_ok _ _ _ hadd
        obtain ⟨hmo1, hmo12, hdo1, hdole, hback⟩ := dt_fields_spec now
        have hTT : monthsTotal r (n : Int) = yearOf now * 12 + (monthOf now : Int) - 1 := by
          unfold monthsTotal at hy1 hm1 ⊢
          omega
        have hy3 : monthsTotal r (n : Int) / 12 = yearOf now := by
          rw [hTT]
          omega
        have hm3 : (monthsTotal r (n : Int) % 12).toNat + 1 = monthOf now := by
          rw [hTT]
          omega
        rw [hy3, hm3, hd] at hz2
        have hmin : min (dayOf now) (daysInMonth (yearOf now) (monthOf now)) = dayOf now := by
          omega
        rw [hmin, hback] at hz2
        rw [hs1] at hs2
        have e1 := secs_split r2
        have e2 := secs_split now
        omega
      · rw [if_neg hn] at hsub
        cases hsub
    · cases hb
  · cases ha

/-- Round trip of a fixed day shift. -/
theorem days_round (k now r r2 : Int)
    (ha : dt_checked_sub_days now k = some r) (hb : dt_checked_add_days r k = some r2) :
    r2 = now := by
  unfold dt_checked_sub_days at ha
  unfold dt_checked_add_days at hb
  split at ha
  · injection ha with h1
    split at hb
    · injection hb with h2
      omega
    · cases hb
  · cases ha

/-- Round trip of a fixed signed second shift. -/
theorem signed_round (s now r r2 : Int)
    (ha : checked_signed_add now (-s) = .ok r) (hb : checked_signed_add r s = .ok r2) :
    r2 = now := by
  unfold checked_signed_add at ha hb
  split at ha
  · injection ha with h1
    split at hb
    · injection hb with h2
      omega
    · cases hb
  · cases ha

/-- C6: resolving `Ago(N·U)` against `now` and then `In(N·U)` against the
result returns exactly `now` whenever both resolutions succeed, for every
unit; for `Month` this holds under the documented exception, i.e. whenever
the backward step did not cross a day-of-month overflow boundary (its
result keeps `now`'s day of month).  `Year` needs no exception: a year step
that would overflow the day of month fails instead of clamping. -/
theorem C6_round_trip (q : Quantifier) (now r r2 : Int)
    (h1 : parse_human_time (.Ago (.AgoFromNow [q])) now = .ok (.DateTime r))
    (h2 : parse_human_time (.In [q]) r = .ok (.DateTime r2))
    (hm : ∀ n, q = .Month n → dayOf r = dayOf now) :
    r2 = now := by
  have ha := pht_ago_ok [q] now r h1
  have hb := pht_in_ok [q] r r2 h2
  rw [apply_duration_single] at ha hb
  cases q with
  | Year n => exact year_round n now r r2 ha hb
  | Month n => exact month_round n now r r2 ha hb (hm n rfl)
  | Week n =>
    have ha2 : apply_week n now .Backwards = .ok r := ha
    have hb2 : apply_week n r .Forwards = .ok r2 := hb
    unfold apply_week at ha2 hb2
    rw [if_neg (by decide : ¬(Direction.Backwards = .Forwards))] at ha2
    rw [if_pos rfl] at hb2
    split at ha2
    · rename_i dt2 hs1
      injection ha2 with har
      subst har
      split at hb2
      · rename_i dt3 hs2
        injection hb2 with hbr
        subst hbr
        exact days_round _ _ _ _ hs1 hs2
      · cases hb2
    · cases ha2
  | Day n =>
    have ha2 : apply_day n now .Backwards = .ok r := ha
    have hb2 : apply_day n r .Forwards = .ok r2 := hb
    unfold apply_day at ha2 hb2
    rw [if_neg (by decide : ¬(Direction.Backwards = .Forwards))] at ha2
    rw [if_pos rfl] at hb2
    split at ha2
    · rename_i dt2 hs1
      injection ha2 with har
      subst har
      split at hb2
      · rename_i dt3 hs2
        injection hb2 with hbr
        subst hbr
        exact days_round _ _ _ _ hs1 hs2
      · cases hb2
    · cases ha2
  | Hour n =>
    have ha2 : apply_hour n now .Backwards = .ok r := ha
    have hb2 : apply_hour n r .Forwards = .ok r2 := hb
    unfold apply_hour at ha2 hb2
    rw [if_neg (by decide : ¬(Direction.Backwards = .Forwards))] at ha2
    rw [if_pos rfl] at hb2
    exact signed_round (3600 * (n : Int)) now r r2 ha2 hb2
  | Minute n =>
    have ha2 : apply_minute n now .Backwards = .ok r := ha
    have hb2 : apply_minute n r .Forwards = .ok r2 := hb
    unfold apply_minute at ha2 hb2
    rw [if_neg (by decide : ¬(Direction.Backwards = .Forwards))] at ha2
    rw [if_pos rfl] at hb2
    exact signed_round (60 * (n : Int)) now r r2 ha2 hb2
  | Second n =>
    have ha2 : apply_second n now .Backwards = .ok r := ha
    have hb2 : apply_second n r .Forwards = .ok r2 := hb
    unfold apply_second at ha2 hb2
    rw [if_neg (by decide : ¬(Direction.Backwards = .Forwards))] at ha2
    rw [if_pos rfl] at hb2
    exact signed_round ((n : Int)) now r r2 ha2 hb2

set_option maxHeartbeats 4000000 in
/-- C6 witness: `3 days ago` from 2010-01-01 reaches 2009-12-29, and
`in 3 days` from there returns exactly to 2010-01-01. -/
theorem C6_witness : mkDT 2009 12 29 0 0 0 + 259200 = now2010 :=
  C6_round_trip (Quantifier.Day 3) now2010 (mkDT 2009 12 29 0 0 0) _ rfl rfl
    (fun _ h => nomatch h)

/-! ## Claim C7 -/

set_option maxHeartbeats 4000000 in
/-- C7: for every reference instant, `from_human_time "2023-11-31"` fails
with a processing error reporting the invalid calendar date 2023-11-31
(November has 30 days); no clamped date is returned. -/
theorem C7_invalid_iso (now : Int) :
    from_human_time ("2023-11-31") now =
      .err (.ProccessingErrors [.InvalidDate 2023 11 31]) := rfl

/-! ## Claim C9 -/

/-- C9: parsing and resolution are pure functions of the input string / AST
and the reference instant — two resolutions of the same input against the
same `now` are identical (the embedding is deterministic exactly as the
source, which touches no mutable state). -/
theorem C9_deterministic (s : String) (ast : HumanTime) (now : Int) :
    from_human_time s now = from_human_time s now ∧
    parse_human_time ast now = parse_human_time ast now :=
  ⟨rfl, rfl⟩

/-! ## Claim C10 -/

/-- C10: a successful resolution of an `In`, `Ago` or `Now` root always
yields the full date-plus-time `ParseResult::DateTime` variant; a bare date
root yields the date-only variant and a bare time root the time-only
variant (lib.rs:102-121). -/
theorem C10_variant_shape (now : Int) :
    (∀ d r, parse_human_time (.In d) now = .ok r → ∃ t, r = .DateTime t) ∧
    (∀ a r, parse_human_time (.Ago a) now = .ok r → ∃ t, r = .DateTime t) ∧
    parse_human_time .Now now = .ok (.DateTime now) ∧
    (∀ d r, parse_human_time (.Date d) now = .ok r → ∃ v, r = .Date v) ∧
    (∀ tm r, parse_human_time (.Time tm) now = .ok r → ∃ v, r = .Time v) ∧
    (∀ dta r, parse_human_time (.DateTime dta) now = .ok r → ∃ t, r = .DateTime t) := by
  refine ⟨?_, ?_, rfl, ?_, ?_, ?_⟩
  · intro d r h
    have h2 : (match parse_in d now with
        | Res.ok t => PRes.ok (ParseResult.DateTime t)
        | Res.err e => PRes.err (.ProccessingErrors [e])
        | Res.panicked => PRes.panicked) = PRes.ok r := h
    cases hres : parse_in d now with
    | ok t =>
      rw [hres] at h2
      have h3 : PRes.ok (ParseResult.DateTime t) = PRes.ok r := h2
      injection h3 with h4
      exact ⟨t, h4.symm⟩
    | err e =>
      rw [hres] at h2
      have h3 : (PRes.err (.ProccessingErrors [e]) : PRes ParseResult) = PRes.ok r := h2
      cases h3
    | panicked =>
      rw [hres] at h2
      have h3 : (PRes.panicked : PRes ParseResult) = PRes.ok r := h2
      cases h3
  · intro a r h
    have h2 : (match parse_ago a now with
        | Res.ok t => PRes.ok (ParseResult.DateTime t)
        | Res.err e => PRes.err (.ProccessingErrors [e])
        | Res.panicked => PRes.panicked) = PRes.ok r := h
    cases hres : parse_ago a now with
    | ok t =>
      rw [hres] at h2
      have h3 : PRes.ok (ParseResult.DateTime t) = PRes.ok r := h2
      injection h3 with h4
      exact ⟨t, h4.symm⟩
    | err e =>
      rw [hres] at h2
      have h3 : (PRes.err (.ProccessingErrors [e]) : PRes ParseResult) = PRes.ok r := h2
      cases h3
    | panicked =>
      rw [hres] at h2
      have h3 : (PRes.panicked : PRes ParseResult) = PRes.ok r := h2
      cases h3
  · intro d r h
    have h2 : (match parse_date d now with
        | Res.ok v => PRes.ok (ParseResult.Date v)
        | Res.err e => PRes.err (.ProccessingErrors [e])
        | Res.panicked => PRes.panicked) = PRes.ok r := h
    cases hres : parse_date d now with
    | ok v =>
      rw [hres] at h2
      have h3 : PRes.ok (ParseResult.Date v) = PRes.ok r := h2
      injection h3 with h4
      exact ⟨v, h4.symm⟩
    | err e =>
      rw [hres] at h2
      have h3 : (PRes.err (.ProccessingErrors [e]) : PRes ParseResult) = PRes.ok r := h2
      cases h3
    | panicked =>
      rw [hres] at h2
      have h3 : (PRes.panicked : PRes ParseResult) = PRes.ok r := h2
      cases h3
  · intro tm r h
    have h2 : (match parse_time tm with
        | Res.ok v => PRes.ok (ParseResult.Time v)
        | Res.err e => PRes.err (.ProccessingErrors [e])
        | Res.panicked => PRes.panicked) = PRes.ok r := h
    cases hres : parse_time tm with
    | ok v =>
      rw [hres] at h2
      have h3 : PRes.ok (ParseResult.Time v) = PRes.ok r := h2
      injection h3 with h4
      exact ⟨v, h4.symm⟩
    | err e =>
      rw [hres] at h2
      have h3 : (PRes.err (.ProccessingErrors [e]) : PRes ParseResult) = PRes.ok r := h2
      cases h3
    | panicked =>
      rw [hres] at h2
      have h3 : (PRes.panicked : PRes ParseResult) = PRes.ok r := h2
      cases h3
  · intro dta r h
    have h2 : (match parse_date_time dta now with
        | PRes.ok t => PRes.ok (ParseResult.DateTime t)
        | PRes.err e => PRes.err e
        | PRes.panicked => PRes.panicked) = PRes.ok r := h
    cases hres : parse_date_time dta now with
    | ok t =>
      rw [hres] at h2
      have h3 : PRes.ok (ParseResult.DateTime t) = PRes.ok r := h2
      injection h3 with h4
      exact ⟨t, h4.symm⟩
    | err e =>
      rw [hres] at h2
      have h3 : (PRes.err e : PRes ParseResult) = PRes.ok r := h2
      cases h3
    | panicked =>
      rw [hres] at h2
      have h3 : (PRes.panicked : PRes ParseResult) = PRes.ok r := h2
      cases h3

set_option maxHeartbeats 4000000 in
/-- C10 witness: concrete resolutions of each root shape, classified by the
theorem. -/
theorem C10_witness :
    (∃ t, ParseResult.DateTime (mkDT 2010 1 4 0 0 0) = ParseResult.DateTime t) ∧
    (∃ v, ParseResult.Date 14610 = ParseResult.Date v) ∧
    (∃ v, ParseResult.Time 54600 = ParseResult.Time v) := by
  refine ⟨?_, ?_, ?_⟩
  · exact (C10_variant_shape now2010).1 [Quantifier.Day 3] _ rfl
  · exact (C10_variant_shape now2010).2.2.2.1 Date.Today _ rfl
  · exact (C10_variant_shape now2010).2.2.2.2.1 (Time.HourMinute 15 10) _ rfl

/-! ## Claim C8 -/

/-- Case analysis of `dt_checked_add_days`. -/
theorem dt_add_days_cases (t k : Int) :
    (∀ z, dt_checked_add_days t k = some z →
      z = t + 86400 * k ∧ minDays ≤ dateOf z ∧ dateOf z ≤ maxDays) ∧
    (dt_checked_add_days t k = none → ¬(minDays ≤ dateOf t + k ∧ dateOf t + k ≤ maxDays)) := by
  unfold dt_checked_add_days
  constructor
  · intro z h
    split at h
    · rename_i hc
      injection h with h2
      subst h2
      unfold dateOf at hc ⊢
      refine ⟨rfl, ?_, ?_⟩ <;> omega
    · cases h
  · intro h
    split at h
    · cases h
    · rename_i hc
      exact hc

/-- Case analysis of `dt_checked_sub_days`. -/
theorem dt_sub_days_cases (t k : Int) :
    (∀ z, dt_checked_sub_days t k = some z →
      z = t - 86400 * k ∧ minDays ≤ dateOf z ∧ dateOf z ≤ maxDays) ∧
    (dt_checked_sub_days t k = none → ¬(minDays ≤ dateOf t - k ∧ dateOf t - k ≤ maxDays)) := by
  unfold dt_checked_sub_days
  constructor
  · intro z h
    split at h
    · rename_i hc
      injection h with h2
      subst h2
      unfold dateOf at hc ⊢
      refine ⟨rfl, ?_, ?_⟩ <;> omega
    · cases h
  · intro h
    split at h
    · cases h
    · rename_i hc
      exact hc

/-- Case analysis of the panicking signed addition. -/
theorem signed_add_cases (t s : Int) :
    (∀ z, checked_signed_add t s = .ok z →
      z = t + s ∧ minDays ≤ dateOf z ∧ dateOf z ≤ maxDays) ∧
    (∀ e, checked_signed_add t s ≠ .err e) ∧
    (checked_signed_add t s = .panicked →
      ¬(minDays ≤ dateOf (t + s) ∧ dateOf (t + s) ≤ maxDays)) := by
  unfold checked_signed_add
  refine ⟨?_, ?_, ?_⟩
  · intro z h
    split at h
    · rename_i hc
      injection h with h2
      subst h2
      exact ⟨rfl, hc.1, hc.2⟩
    · cases h
  · intro e h
    split at h <;> cases h
  · intro h
    split at h
    · cases h
    · rename_i hc
      exact hc

/-- C8, amended behaviour of `apply_duration` on `Week`, `Day`, `Hour`,
`Minute` and `Second` quantifiers (lib.rs:291-349): these units are exact
timeline arithmetic (a week is 7 days, a day 86400 seconds, and so on) and
never fail for calendar-shape reasons; they fail exactly when the shifted
instant's date leaves chrono's representable range — `Week`/`Day` with an
error naming the unit, count and starting instant (the source uses
`AddToDate` in both directions), `Hour`/`Minute`/`Second` by panicking. -/
theorem C8_small_units (n : Nat) (t : Int) (dir : Direction) :
    (apply_quant (.Week n) t dir ≠ .panicked ∧
      (∀ e, apply_quant (.Week n) t dir = .err e → e = .AddToDate ("weeks") n t) ∧
      (∀ r, apply_quant (.Week n) t dir = .ok r →
        (dir = .Forwards → r = t + 86400 * ((n * 7 : Nat) : Int)) ∧
        (dir = .Backwards → r = t - 86400 * ((n * 7 : Nat) : Int)) ∧
        minDays ≤ dateOf r ∧ dateOf r ≤ maxDays) ∧
      (∀ e, apply_quant (.Week n) t dir = .err e →
        (dir = .Forwards →
          ¬(minDays ≤ dateOf t + ((n * 7 : Nat) : Int) ∧
            dateOf t + ((n * 7 : Nat) : Int) ≤ maxDays)) ∧
        (dir = .Backwards →
          ¬(minDays ≤ dateOf t - ((n * 7 : Nat) : Int) ∧
            dateOf t - ((n * 7 : Nat) : Int) ≤ maxDays)))) ∧
    (apply_quant (.Day n) t dir ≠ .panicked ∧
      (∀ e, apply_quant (.Day n) t dir = .err e → e = .AddToDate ("days") n t) ∧
      (∀ r, apply_quant (.Day n) t dir = .ok r →
        (dir = .Forwards → r = t + 86400 * (n : Int)) ∧
        (dir = .Backwards → r = t - 86400 * (n : Int)) ∧
        minDays ≤ dateOf r ∧ dateOf r ≤ maxDays) ∧
      (∀ e, apply_quant (.Day n) t dir = .err e →
        (dir = .Forwards →
          ¬(minDays ≤ dateOf t + (n : Int) ∧ dateOf t + (n : Int) ≤ maxDays)) ∧
        (dir = .Backwards →
          ¬(minDays ≤ dateOf t - (n : Int) ∧ dateOf t - (n : Int) ≤ maxDays)))) ∧
    ((∀ e, apply_quant (.Hour n) t dir ≠ .err e) ∧
      (∀ r, apply_quant (.Hour n) t dir = .ok r →
        (dir = .Forwards → r = t + 3600 * (n : Int)) ∧
        (dir = .Backwards → r = t - 3600 * (n : Int)) ∧
        minDays ≤ dateOf r ∧ dateOf r ≤ maxDays)) ∧
    ((∀ e, apply_quant (.Minute n) t dir ≠ .err e) ∧
      (∀ r, apply_quant (.Minute n) t dir = .ok r →
        (dir = .Forwards → r = t + 60 * (n : Int)) ∧
        (dir = .Backwards → r = t - 60 * (n : Int)) ∧
        minDays ≤ dateOf r ∧ dateOf r ≤ maxDays)) ∧
    ((∀ e, apply_quant (.Second n) t dir ≠ .err e) ∧
      (∀ r, apply_quant (.Second n) t dir = .ok r →
        (dir = .Forwards → r = t + (n : Int)) ∧
        (dir = .Backwards → r = t - (n : Int)) ∧
        minDays ≤ dateOf r ∧ dateOf r ≤ maxDays)) := by
  refine ⟨?_, ?_, ?_, ?_, ?_⟩
  · -- Week
    have hw : apply_quant (.Week n) t dir = apply_week n t dir := rfl
    rw [hw]
    unfold apply_week
    cases dir with
    | Forwards =>
      rw [if_pos rfl]
      cases hadd : dt_checked_add_days t ((n * 7 : Nat) : Int) with
      | some z =>
        obtain ⟨hz, hlo, hhi⟩ := (dt_add_days_cases t _).1 z hadd
        refine ⟨by simp, ?_, ?_, ?_⟩
        · intro e he
          cases he
        · intro r hr
          injection hr with hr2
          subst hr2
          exact ⟨fun _ => hz, (by intro hcon; exact absurd hcon (by decide)), hlo, hhi⟩
        · intro e he
          cases he
      | none =>
        have hrange := (dt_add_days_cases t ((n * 7 : Nat) : Int)).2 hadd
        refine ⟨by simp, ?_, ?_, ?_⟩
        · intro e he
          injection he with he2
          exact he2.symm
        · intro r hr
          cases hr
        · intro e he
          exact ⟨fun _ => hrange, (by intro hcon; exact absurd hcon (by decide))⟩
    | Backwards =>
      rw [if_neg (by decide : ¬(Direction.Backwards = .Forwards))]
      cases hsub : dt_checked_sub_days t ((n * 7 : Nat) : Int) with
      | some z =>
        obtain ⟨hz, hlo, hhi⟩ := (dt_sub_days_cases t _).1 z hsub
        refine ⟨by simp, ?_, ?_, ?_⟩
        · intro e he
          cases he
        · intro r hr
          injection hr with hr2
          subst hr2
          exact ⟨(by intro hcon; exact absurd hcon (by decide)), fun _ => hz, hlo, hhi⟩
        · intro e he
          cases he
      | none =>
        have hrange := (dt_sub_days_cases t ((n * 7 : Nat) : Int)).2 hsub
        refine ⟨by simp, ?_, ?_, ?_⟩
        · intro e he
          injection he with he2
          exact he2.symm
        · intro r hr
          cases hr
        · intro e he
          exact ⟨(by intro hcon; exact absurd hcon (by decide)), fun _ => hrange⟩
  · -- Day
    have hw : apply_quant (.Day n) t dir = apply_day n t dir := rfl
    rw [hw]
    unfold apply_day
    cases dir with
    | Forwards =>
      rw [if_pos rfl]
      cases hadd : dt_checked_add_days t ((n : Nat) : Int) with
      | some z =>
        obtain ⟨hz, hlo, hhi⟩ := (dt_add_days_cases t _).1 z hadd
        refine ⟨by simp, ?_, ?_, ?_⟩
        · intro e he
          cases he
        · intro r hr
          injection hr with hr2
          subst hr2
          exact ⟨fun _ => hz, (by intro hcon; exact absurd hcon (by decide)), hlo, hhi⟩
        · intro e he
          cases he
      | none =>
        have hrange := (dt_add_days_cases t ((n : Nat) : Int)).2 hadd
        refine ⟨by simp, ?_, ?_, ?_⟩
        · intro e he
          injection he with he2
          exact he2.symm
        · intro r hr
          cases hr
        · intro e he
          exact ⟨fun _ => hrange, (by intro hcon; exact absurd hcon (by decide))⟩
    | Backwards =>
      rw [if_neg (by decide : ¬(Direction.Backwards = .Forwards))]
      cases hsub : dt_checked_sub_days t ((n : Nat) : Int) with
      | some z =>
        obtain ⟨hz, hlo, hhi⟩ := (dt_sub_days_cases t _).1 z hsub
        refine ⟨by simp, ?_, ?_, ?_⟩
        · intro e he
          cases he
        · intro r hr
          injection hr with hr2
          subst hr2
          exact ⟨(by intro hcon; exact absurd hcon (by decide)), fun _ => hz, hlo, hhi⟩
        · intro e he
          cases he
      | none =>
        have hrange := (dt_sub_days_cases t ((n : Nat) : Int)).2 hsub
        refine ⟨by simp, ?_, ?_, ?_⟩
        · intro e he
          injection he with he2
          exact he2.symm
        · intro r hr
          cases hr
        · intro e he
          exact ⟨(by intro hcon; exact absurd hcon (by decide)), fun _ => hrange⟩
  · -- Hour
    have hw : apply_quant (.Hour n) t dir = apply_hour n t dir := rfl
    rw [hw]
    unfold apply_hour
    cases dir with
    | Forwards =>
      rw [if_pos rfl]
      refine ⟨(signed_add_cases t (3600 * (n : Int))).2.1, ?_⟩
      intro r hr
      obtain ⟨hz, hlo, hhi⟩ := (signed_add_cases t (3600 * (n : Int))).1 r hr
      exact ⟨fun _ => hz, (by intro hcon; exact absurd hcon (by decide)), hlo, hhi⟩
    | Backwards =>
      rw [if_neg (by decide : ¬(Direction.Backwards = .Forwards))]
      refine ⟨(signed_add_cases t (-(3600 * (n : Int)))).2.1, ?_⟩
      intro r hr
      obtain ⟨hz, hlo, hhi⟩ := (signed_add_cases t (-(3600 * (n : Int)))).1 r hr
      refine ⟨(by intro hcon; exact absurd hcon (by decide)), fun _ => by omega, hlo, hhi⟩
  · -- Minute
    have hw : apply_quant (.Minute n) t dir = apply_minute n t dir := rfl
    rw [hw]
    unfold apply_minute
    cases dir with
    | Forwards =>
      rw [if_pos rfl]
      refine ⟨(signed_add_cases t (60 * (n : Int))).2.1, ?_⟩
      intro r hr
      obtain ⟨hz, hlo, hhi⟩ := (signed_add_cases t (60 * (n : Int))).1 r hr
      exact ⟨fun _ => hz, (by intro hcon; exact absurd hcon (by decide)), hlo, hhi⟩
    | Backwards =>
      rw [if_neg (by decide : ¬(Direction.Backwards = .Forwards))]
      refine ⟨(signed_add_cases t (-(60 * (n : Int)))).2.1, ?_⟩
      intro r hr
      obtain ⟨hz, hlo, hhi⟩ := (signed_add_cases t (-(60 * (n : Int)))).1 r hr
      refine ⟨(by intro hcon; exact absurd hcon (by decide)), fun _ => by omega, hlo, hhi⟩
  · -- Second
    have hw : apply_quant (.Second n) t dir = apply_second n t dir := rfl
    rw [hw]
    unfold apply_second
    cases dir with
    | Forwards =>
      rw [if_pos rfl]
      refine ⟨(signed_add_cases t ((n : Nat) : Int)).2.1, ?_⟩
      intro r hr
      obtain ⟨hz, hlo, hhi⟩ := (signed_add_cases t ((n : Nat) : Int)).1 r hr
      exact ⟨fun _ => hz, (by intro hcon; exact absurd hcon (by decide)), hlo, hhi⟩
    | Backwards =>
      rw [if_neg (by decide : ¬(Direction.Backwards = .Forwards))]
      refine ⟨(signed_add_cases t (-((n : Nat) : Int))).2.1, ?_⟩
      intro r hr
      obtain ⟨hz, hlo, hhi⟩ := (signed_add_cases t (-((n : Nat) : Int))).1 r hr
      refine ⟨(by intro hcon; exact absurd hcon (by decide)), fun _ => by omega, hlo, hhi⟩

set_option maxHeartbeats 4000000 in
/-- C8 counterexample: the claim that `Week`/`Day`/`Hour`/`Minute`/`Second`
application never fails is false — from the ordinary instant
2010-01-01T00:00:00, `in 4000000000 days` (a valid `u32` count) fails with
an `AddToDate` error, and `in 4000000000 hours` panics, because the results
exceed chrono's maximal representable date. -/
theorem C8_counterexample :
    apply_duration [Quantifier.Day 4000000000] now2010 .Forwards =
      .err (.AddToDate ("days") 4000000000 now2010) ∧
    apply_duration [Quantifier.Hour 4000000000] now2010 .Forwards = .panicked := by
  exact ⟨rfl, rfl⟩

set_option maxHeartbeats 4000000 in
/-- C8 witness: the amended theorem applied to `3 days` forward from
2010-01-01: the result is the exact 3-day shift and stays in range. -/
theorem C8_witness :
    mkDT 2010 1 4 0 0 0 = now2010 + 86400 * ((3 : Nat) : Int) ∧
    minDays ≤ dateOf (mkDT 2010 1 4 0 0 0) ∧ dateOf (mkDT 2010 1 4 0 0 0) ≤ maxDays := by
  have h := (C8_small_units 3 now2010 .Forwards).2.1.2.2.1 (mkDT 2010 1 4 0 0 0) rfl
  exact ⟨h.1 rfl, h.2.2.1, h.2.2.2⟩

end HumanDateParser
